import Mathlib

/-!
# Comment-event dispatch of the GitLab webhook (`server/webhook/note.go`)

A shallow embedding of `HandleIssueComment`, `HandleMergeRequestComment` and
the four steps they are built from, followed by the properties proved of them.

Conventions of the embedding:
* Go strings are Lean `String`s, Go slices are `List`s (a nil slice and an empty
  slice are both `[]`), Go `int` is `Int`.
* A returned `error` is an `Option Error` (`none` is Go's `nil`); the record list
  of the two exported handlers is an `Option` as well, `none` being the `nil`
  slice returned next to an error.
* The collaborators reached through `w.gitlabRetreiver` are the fields of
  `GitlabRetreiver`; the helpers of the package that live in other files are the
  fields of `Helpers`.
-/

namespace GitlabWebhook

/-! ## Data model -/

/-- Stand-in for `context.Context`: it is only handed through to the store. -/
structure Context where
  id : Nat
deriving DecidableEq, Repr

/-- Go's `error` values, identified by their text. -/
structure Error where
  text : String
deriving DecidableEq, Repr

/-- The record `HandleWebhook` handed to the delivery layer. -/
structure HandleWebhook where
  Message : String
  From : String
  ToUsers : List String
  ToChannels : List String
deriving DecidableEq, Repr

/-- The fields of `subscription.Subscription` (as the tests build it). -/
structure Subscription where
  ChannelID : String
  CreatorID : String
  Features : String
  Repository : String
deriving DecidableEq, Repr

/-- A label carried by an event; only its name takes part in matching. -/
structure EventLabel where
  Name : String
deriving DecidableEq, Repr

/-- The `User` part of a comment event. -/
structure EventUser where
  Username : String
deriving DecidableEq, Repr

/-- The `Project` part of a comment event. -/
structure EventProject where
  PathWithNamespace : String
  WebURL : String
  Visibility : String
deriving DecidableEq, Repr

/-- The `ObjectAttributes` part of a comment event: the comment itself. -/
structure EventNote where
  URL : String
  Description : String
deriving DecidableEq, Repr

/-- The `Issue` part of `gitlab.IssueCommentEvent`. -/
structure EventIssue where
  IID : Int
  Title : String
  AssigneeIDs : List Int
  AuthorID : Int
  Labels : List EventLabel
deriving DecidableEq, Repr

/-- The `MergeRequest` part of `gitlab.MergeCommentEvent`. -/
structure EventMergeRequest where
  IID : Int
  Title : String
  AssigneeID : Int
  AuthorID : Int
  Labels : List EventLabel
deriving DecidableEq, Repr

/-- The fields of `gitlab.IssueCommentEvent` read by the handlers. -/
structure IssueCommentEvent where
  User : EventUser
  Project : EventProject
  Issue : EventIssue
  ObjectAttributes : EventNote
deriving DecidableEq, Repr

/-- The fields of `gitlab.MergeCommentEvent` read by the handlers. -/
structure MergeCommentEvent where
  User : EventUser
  Project : EventProject
  MergeRequest : EventMergeRequest
  ObjectAttributes : EventNote
deriving DecidableEq, Repr

/-- The argument record of `handleMention`. -/
structure mentionDetails where
  senderUsername : String
  pathWithNamespace : String
  IID : String
  URL : String
  body : String
deriving DecidableEq, Repr

/-- The value of `gitlab.PublicVisibility`. -/
def PublicVisibility : String := "public"

/-- The methods of the `gitlabRetreiver` collaborator used in `note.go`. -/
structure GitlabRetreiver where
  GetUserURL : String → String
  GetUsernameByID : Int → String
  GetSubscribedChannelsForProject : Context → String → String → Bool → List Subscription

/-- The helpers of the package that `note.go` calls and other files define. -/
structure Helpers where
  handleMention : GitlabRetreiver → mentionDetails → Option HandleWebhook
  anyEventLabelInSubs : Subscription → List EventLabel → Bool × String
  cleanWebhookHandlers : List HandleWebhook → List HandleWebhook
  normalizeNamespacedProject : String → String × String
  IssueComments : Subscription → Bool
  MergeRequestComments : Subscription → Bool

/-! ## `fmt.Sprintf`, for the verbs `%s`, `%v` and `%d` -/

/-- An operand of `fmt.Sprintf`: a string or an `int`. -/
inductive Arg where
  | str (s : String)
  | int (i : Int)
deriving DecidableEq, Repr

/-- Decimal rendering of an `int`, with a leading `-` when negative. -/
def decimal (i : Int) : String := Int.repr i

/-- Go's name of the operand's type, used in its bad-verb output. -/
def Arg.typeName : Arg → String
  | .str _ => "string"
  | .int _ => "int"

/-- The default (`%v`) rendering of an operand. -/
def Arg.value : Arg → String
  | .str s => s
  | .int i => decimal i

/-- One verb applied to one operand. -/
def formatVerb (verb : Char) (a : Arg) : String :=
  match a with
  | .str s =>
    if verb = 's' ∨ verb = 'v' then s
    else "%!" ++ String.mk [verb] ++ "(string=" ++ s ++ ")"
  | .int i =>
    if verb = 'v' ∨ verb = 'd' then decimal i
    else "%!" ++ String.mk [verb] ++ "(int=" ++ decimal i ++ ")"

/-- Operands left over once the format is consumed, as Go reports them. -/
def extraArgs : List Arg → String
  | [] => ""
  | [a] => a.typeName ++ "=" ++ a.value
  | a :: rest => a.typeName ++ "=" ++ a.value ++ ", " ++ extraArgs rest

/-- The format scanner: literal characters are copied, `%%` is a percent sign,
`%c` consumes the next operand. -/
def sprintfChars : List Char → List Arg → String
  | [], [] => ""
  | [], a :: rest => "%!(EXTRA " ++ extraArgs (a :: rest) ++ ")"
  | [c], args =>
    if c = '%' then "%!(NOVERB)" ++ sprintfChars [] args
    else String.mk [c] ++ sprintfChars [] args
  | c :: verb :: rest, args =>
    if c = '%' then
      if verb = '%' then "%" ++ sprintfChars rest args
      else
        match args with
        | [] => "%!" ++ String.mk [verb] ++ "(MISSING)" ++ sprintfChars rest []
        | a :: args => formatVerb verb a ++ sprintfChars rest args
    else String.mk [c] ++ sprintfChars (verb :: rest) args

/-- The function `fmt.Sprintf`. -/
def Sprintf (format : String) (args : List Arg) : String :=
  sprintfChars format.data args

/-! ## The direct-message step -/

/-- The rendering `fmt.Sprintf("%d", IID)` handed to the mention detector. -/
def iidString (iid : Int) : String := Sprintf "%d" [.int iid]

/-- The message of `handleDMIssueComment` (line 28). -/
def issueDMMessage (w : GitlabRetreiver) (event : IssueCommentEvent) : String :=
  Sprintf "[%s](%s) commented on your issue [%s#%v](%s)"
    [.str event.User.Username, .str (w.GetUserURL event.User.Username),
     .str event.Project.PathWithNamespace, .int event.Issue.IID,
     .str event.ObjectAttributes.URL]

/-- The loop of lines 31-33: `toUsers[index] = GetUsernameByID(assigneeID)` for
the assignee ids from position `index` on. -/
def fillAssignees (w : GitlabRetreiver) : List Int → Nat → List String → List String
  | [], _, toUsers => toUsers
  | assigneeID :: rest, index, toUsers =>
    fillAssignees w rest (index + 1) (toUsers.set index (w.GetUsernameByID assigneeID))

/-- The slice `toUsers` of `handleDMIssueComment` (lines 30-34): allocated with
`len(AssigneeIDs)+1` empty strings, filled by the loop, its last cell then set
to the author. -/
def issueToUsers (w : GitlabRetreiver) (event : IssueCommentEvent) : List String :=
  let toUsers := List.replicate (event.Issue.AssigneeIDs.length + 1) ""
  let toUsers := fillAssignees w event.Issue.AssigneeIDs 0 toUsers
  toUsers.set (toUsers.length - 1) (w.GetUsernameByID event.Issue.AuthorID)

/-- The method `handleDMIssueComment` (lines 26-55). -/
def handleDMIssueComment (h : Helpers) (w : GitlabRetreiver) (event : IssueCommentEvent) :
    List HandleWebhook × Option Error :=
  let senderGitlabUsername := event.User.Username
  let message := issueDMMessage w event
  let toUsers := issueToUsers w event
  let handlers : List HandleWebhook :=
    [{ Message := message, ToUsers := toUsers, From := senderGitlabUsername, ToChannels := [] }]
  let handlers :=
    match h.handleMention w
      { senderUsername := senderGitlabUsername
        pathWithNamespace := event.Project.PathWithNamespace
        IID := iidString event.Issue.IID
        URL := event.ObjectAttributes.URL
        body := event.ObjectAttributes.Description } with
    | some mention => handlers ++ [mention]
    | none => handlers
  (handlers, none)

/-- The message of `handleDMMergeRequestComment` (line 113). -/
def mergeRequestDMMessage (w : GitlabRetreiver) (event : MergeCommentEvent) : String :=
  Sprintf "[%s](%s) commented on your merge request [%s#%v](%s)"
    [.str event.User.Username, .str (w.GetUserURL event.User.Username),
     .str event.Project.PathWithNamespace, .int event.MergeRequest.IID,
     .str event.ObjectAttributes.URL]

/-- The method `handleDMMergeRequestComment` (lines 111-131). -/
def handleDMMergeRequestComment (h : Helpers) (w : GitlabRetreiver) (event : MergeCommentEvent) :
    List HandleWebhook × Option Error :=
  let senderGitlabUsername := event.User.Username
  let message := mergeRequestDMMessage w event
  let handlers : List HandleWebhook :=
    [{ Message := message
       ToUsers := [w.GetUsernameByID event.MergeRequest.AssigneeID,
                   w.GetUsernameByID event.MergeRequest.AuthorID]
       From := senderGitlabUsername
       ToChannels := [] }]
  let handlers :=
    match h.handleMention w
      { senderUsername := senderGitlabUsername
        pathWithNamespace := event.Project.PathWithNamespace
        IID := iidString event.MergeRequest.IID
        URL := event.ObjectAttributes.URL
        body := event.ObjectAttributes.Description } with
    | some mention => handlers ++ [mention]
    | none => handlers
  (handlers, none)

/-! ## The channel step -/

/-- The channel message of both channel steps (lines 63 and 139). -/
def channelMessage (w : GitlabRetreiver) (senderGitlabUsername : String) (repo : EventProject)
    (iid : Int) (title url body : String) : String :=
  Sprintf "[%s](%s) New comment by [%s](%s) on [#%v %s](%s):\n\n%s"
    [.str repo.PathWithNamespace, .str repo.WebURL, .str senderGitlabUsername,
     .str (w.GetUserURL senderGitlabUsername), .int iid, .str title, .str url, .str body]

/-- The subscriptions the store returns for the project of an event
(lines 66-70 and 142-146). -/
def subscribedChannels (h : Helpers) (w : GitlabRetreiver) (ctx : Context)
    (repo : EventProject) : List Subscription :=
  let np := h.normalizeNamespacedProject repo.PathWithNamespace
  w.GetSubscribedChannelsForProject ctx np.1 np.2 (repo.Visibility == PublicVisibility)

/-- One turn of the loop of `handleChannelIssueComment` (lines 72-86) on the
pair `(toChannels, warnings)`. -/
def issueCommentStep (h : Helpers) (event : IssueCommentEvent)
    (st : List String × List String) (sub : Subscription) : List String × List String :=
  if !h.IssueComments sub then st
  else
    let r := h.anyEventLabelInSubs sub event.Issue.Labels
    if !r.1 then
      if r.2.utf8ByteSize > 0 then (st.1, st.2 ++ [r.2]) else st
    else (st.1 ++ [sub.ChannelID], st.2)

/-- The pair `(toChannels, warnings)` when the loop of
`handleChannelIssueComment` ends. -/
def issueCommentLoop (h : Helpers) (w : GitlabRetreiver) (ctx : Context)
    (event : IssueCommentEvent) : List String × List String :=
  (subscribedChannels h w ctx event.Project).foldl (issueCommentStep h event) ([], [])

/-- The method `handleChannelIssueComment` (lines 57-96). -/
def handleChannelIssueComment (h : Helpers) (w : GitlabRetreiver) (ctx : Context)
    (event : IssueCommentEvent) : List HandleWebhook × List String × Option Error :=
  let senderGitlabUsername := event.User.Username
  let repo := event.Project
  let body := event.ObjectAttributes.Description
  let res : List HandleWebhook := []
  let message := channelMessage w senderGitlabUsername repo event.Issue.IID event.Issue.Title
    event.ObjectAttributes.URL body
  let loop := issueCommentLoop h w ctx event
  let toChannels := loop.1
  let warnings := loop.2
  let res :=
    if toChannels.length > 0 then
      res ++ [{ From := senderGitlabUsername, Message := message, ToUsers := [],
                ToChannels := toChannels }]
    else res
  (res, warnings, none)

/-- One turn of the loop of `handleChannelMergeRequestComment` (lines 147-161). -/
def mergeRequestCommentStep (h : Helpers) (event : MergeCommentEvent)
    (st : List String × List String) (sub : Subscription) : List String × List String :=
  if !h.MergeRequestComments sub then st
  else
    let r := h.anyEventLabelInSubs sub event.MergeRequest.Labels
    if !r.1 then
      if r.2.utf8ByteSize > 0 then (st.1, st.2 ++ [r.2]) else st
    else (st.1 ++ [sub.ChannelID], st.2)

/-- The pair `(toChannels, warnings)` when the loop of
`handleChannelMergeRequestComment` ends. -/
def mergeRequestCommentLoop (h : Helpers) (w : GitlabRetreiver) (ctx : Context)
    (event : MergeCommentEvent) : List String × List String :=
  (subscribedChannels h w ctx event.Project).foldl (mergeRequestCommentStep h event) ([], [])

/-- The method `handleChannelMergeRequestComment` (lines 133-171). -/
def handleChannelMergeRequestComment (h : Helpers) (w : GitlabRetreiver) (ctx : Context)
    (event : MergeCommentEvent) : List HandleWebhook × List String × Option Error :=
  let senderGitlabUsername := event.User.Username
  let repo := event.Project
  let body := event.ObjectAttributes.Description
  let res : List HandleWebhook := []
  let message := channelMessage w senderGitlabUsername repo event.MergeRequest.IID
    event.MergeRequest.Title event.ObjectAttributes.URL body
  let loop := mergeRequestCommentLoop h w ctx event
  let toChannels := loop.1
  let warnings := loop.2
  let res :=
    if toChannels.length > 0 then
      res ++ [{ From := senderGitlabUsername, Message := message, ToUsers := [],
                ToChannels := toChannels }]
    else res
  (res, warnings, none)

/-! ## The two exported handlers -/

/-- The body shared by `HandleIssueComment` and `HandleMergeRequestComment`
(lines 14-23 and 99-108), as a function of what the two calls return: `dm` is
the outcome of the DM step (`handlers, err`), `ch` the outcome of the channel
step (`handlers2, warnings, err`), `clean` is `cleanWebhookHandlers`. An error
of the DM step is returned with a nil record list and the still empty
`warnings`; an error of the channel step is returned with a nil record list and
that step's warnings; otherwise the records of both steps are appended and
cleaned. -/
def dispatchOutcome (clean : List HandleWebhook → List HandleWebhook)
    (dm : List HandleWebhook × Option Error)
    (ch : List HandleWebhook × List String × Option Error) :
    Option (List HandleWebhook) × List String × Option Error :=
  let warnings : List String := []
  match dm with
  | (_, some err) => (none, warnings, some err)
  | (handlers, none) =>
    match ch with
    | (_, warnings, some err) => (none, warnings, some err)
    | (handlers2, warnings, none) => (some (clean (handlers ++ handlers2)), warnings, none)

/-- The method `HandleIssueComment` (lines 13-24): the body `dispatchOutcome`
on the outcomes of `handleDMIssueComment` and `handleChannelIssueComment`;
records, warnings, error. -/
def HandleIssueComment (h : Helpers) (w : GitlabRetreiver) (ctx : Context)
    (event : IssueCommentEvent) : Option (List HandleWebhook) × List String × Option Error :=
  dispatchOutcome h.cleanWebhookHandlers (handleDMIssueComment h w event)
    (handleChannelIssueComment h w ctx event)

/-- The method `HandleMergeRequestComment` (lines 98-109): the body
`dispatchOutcome` on the outcomes of `handleDMMergeRequestComment` and
`handleChannelMergeRequestComment`. -/
def HandleMergeRequestComment (h : Helpers) (w : GitlabRetreiver) (ctx : Context)
    (event : MergeCommentEvent) : Option (List HandleWebhook) × List String × Option Error :=
  dispatchOutcome h.cleanWebhookHandlers (handleDMMergeRequestComment h w event)
    (handleChannelMergeRequestComment h w ctx event)

/-! ## The shared shape of the two subscription loops -/

/-- One turn of a subscription loop with the capability test `cap` and the
label check `check`; both loops of `note.go` are instances of it
(`issueCommentStep_eq`, `mergeRequestCommentStep_eq`). -/
def subscriptionStep (cap : Subscription → Bool) (check : Subscription → Bool × String)
    (st : List String × List String) (sub : Subscription) : List String × List String :=
  if !cap sub then st
  else if !(check sub).1 then
    if (check sub).2.utf8ByteSize > 0 then (st.1, st.2 ++ [(check sub).2]) else st
  else (st.1 ++ [sub.ChannelID], st.2)

/-- A retriever whose store answers every lookup with `subs`; the user
directory is the one of `w`. -/
def withSubscriptions (w : GitlabRetreiver) (subs : List Subscription) : GitlabRetreiver :=
  { GetUserURL := w.GetUserURL
    GetUsernameByID := w.GetUsernameByID
    GetSubscribedChannelsForProject := fun _ _ _ _ => subs }

/-! ## Helpers defined outside `note.go` -/

/-- Modelled from the spec: the warning text of a malformed label filter
(§4.4 step 2); the filter itself is parsed outside `note.go`. -/
def labelWarning : String := "each label must be wrapped in quotes, e.g. label:\"bug\""

/-- Modelled from the spec: the comma-separated tokens of a feature descriptor
(§3); the descriptor is parsed outside `note.go`. -/
def splitComma : List Char → List (List Char)
  | [] => [[]]
  | c :: cs =>
    if c = ',' then [] :: splitComma cs
    else
      match splitComma cs with
      | [] => [[c]]
      | t :: ts => (c :: t) :: ts

/-- Modelled from the spec: the token list of a feature descriptor (§3). -/
def featureTokens (features : String) : List (List Char) := splitComma features.data

/-- Modelled from the spec: the text after `label:` when the token is a
label-filter token (§4.4 step 2), `none` for any other token. -/
def labelArg (token : List Char) : Option (List Char) :=
  if token.take 6 = "label:".data then some (token.drop 6) else none

/-- Modelled from the spec: the name of a quoted `"<name>"` (§4.4 step 2),
`none` when the text is not wrapped in quotes. -/
def quotedName (arg : List Char) : Option String :=
  match arg with
  | [] => none
  | c :: rest =>
    if c = '"' ∧ rest.getLast? = some '"' then some (String.mk rest.dropLast) else none

/-- Modelled from the spec: a `label:` token with no quoted name (§4.4 step 2). -/
def isBareLabel (token : List Char) : Bool :=
  match labelArg token with
  | some arg => (quotedName arg).isNone
  | none => false

/-- Modelled from the spec: the descriptor holds a `label:` token with no
quoted name, the malformed filter of §4.4 step 2. -/
def hasBareLabel (features : String) : Bool := (featureTokens features).any isBareLabel

/-- Modelled from the spec: the names of the well-formed `label:"<name>"`
tokens of a descriptor (§4.4 steps 2-4). -/
def labelNames (features : String) : List String :=
  (featureTokens features).filterMap (fun token => (labelArg token).bind quotedName)

/-- Modelled from the spec: the label check `anyEventLabelInSubs` of the
Subscription Filter (§4.4 steps 2-4), defined outside `note.go`. A malformed
filter is not ok and carries the warning; no label token is ok; otherwise ok iff
some filter name equals the name of some label of the event, with no warning. -/
def anyEventLabelInSubs (sub : Subscription) (eventLabels : List EventLabel) : Bool × String :=
  if hasBareLabel sub.Features then (false, labelWarning)
  else if (labelNames sub.Features).isEmpty then (true, "")
  else (eventLabels.any (fun l => (labelNames sub.Features).contains l.Name), "")

/-- Modelled from the spec: the capability flag `issue_comments` of a
descriptor (§3, §4.4 step 1); `Subscription.IssueComments` is defined outside
`note.go`. -/
def Subscription.IssueComments (sub : Subscription) : Bool :=
  (featureTokens sub.Features).contains "issue_comments".data

/-- Modelled from the spec: the capability flag `merge_request_comments` of a
descriptor (§3, §4.4 step 1); `Subscription.MergeRequestComments` is defined
outside `note.go`. -/
def Subscription.MergeRequestComments (sub : Subscription) : Bool :=
  (featureTokens sub.Features).contains "merge_request_comments".data

/-- Modelled from the spec: the split of a repository path at its last slash
(§6): everything before it, and the final segment. -/
def splitLastSlash : List Char → List Char × List Char
  | [] => ([], [])
  | c :: cs =>
    if cs.contains '/' then (c :: (splitLastSlash cs).1, (splitLastSlash cs).2)
    else if c = '/' then ([], cs)
    else ([], c :: cs)

/-- Modelled from the spec: the Namespace normalizer (§6),
`normalizeNamespacedProject`, defined outside `note.go`. -/
def normalizeNamespacedProject (path : String) : String × String :=
  (String.mk (splitLastSlash path.data).1, String.mk (splitLastSlash path.data).2)

/-- Modelled from the spec: two records are merged by the Deduplicator when
they share `From` and `Message` (§4.6). -/
def sameNotification (a b : HandleWebhook) : Bool :=
  decide (a.From = b.From) && decide (a.Message = b.Message)

/-- Modelled from the spec: one record entering the Deduplicator's output
(§4.6): it is merged into the earliest record with the same `From` and
`Message`, its `ToUsers` and `ToChannels` appended there, or else added at the
end. -/
def mergeHandler (r : HandleWebhook) : List HandleWebhook → List HandleWebhook
  | [] => [r]
  | x :: xs =>
    if sameNotification x r then
      { Message := x.Message, From := x.From, ToUsers := x.ToUsers ++ r.ToUsers,
        ToChannels := x.ToChannels ++ r.ToChannels } :: xs
    else x :: mergeHandler r xs

/-- Modelled from the spec: the Notification Deduplicator (§4.6),
`cleanWebhookHandlers`, defined outside `note.go`: the records are taken in
order, each merged into the output built so far. -/
def cleanWebhookHandlers (handlers : List HandleWebhook) : List HandleWebhook :=
  handlers.foldl (fun acc r => mergeHandler r acc) []

/-- The helpers as the specification describes them, around a given mention
detector. -/
def specHelpers (handleMention : GitlabRetreiver → mentionDetails → Option HandleWebhook) :
    Helpers :=
  { handleMention := handleMention
    anyEventLabelInSubs := anyEventLabelInSubs
    cleanWebhookHandlers := cleanWebhookHandlers
    normalizeNamespacedProject := normalizeNamespacedProject
    IssueComments := Subscription.IssueComments
    MergeRequestComments := Subscription.MergeRequestComments }

/-! ## Sample data, after `note_test.go` -/

/-- A mention detector that finds nothing. -/
def noMention : GitlabRetreiver → mentionDetails → Option HandleWebhook := fun _ _ => none

/-- A user directory in the manner of the tests' fake: id 1 is `root`, id 50 is
`manland`, profile pages live under `http://my.gitlab.com/`; the store answers
with `subs`. -/
def sampleRetreiver (subs : List Subscription) : GitlabRetreiver :=
  { GetUserURL := fun username => "http://my.gitlab.com/" ++ username
    GetUsernameByID := fun id => if id = 1 then "root" else if id = 50 then "manland" else ""
    GetSubscribedChannelsForProject := fun _ _ _ _ => subs }

/-- The context of the sample calls (`context.Background()`). -/
def sampleContext : Context := { id := 0 }

/-- An issue comment by `manland` on `manland/webhook#1`, carrying the label
`bug`; the issue is assigned to users 1 and 50 and written by user 1. -/
def sampleIssueComment : IssueCommentEvent :=
  { User := { Username := "manland" }
    Project := { PathWithNamespace := "manland/webhook"
                 WebURL := "http://localhost:3000/manland/webhook"
                 Visibility := "public" }
    Issue := { IID := 1, Title := "test new issue", AssigneeIDs := [1, 50], AuthorID := 1,
               Labels := [{ Name := "bug" }] }
    ObjectAttributes := { URL := "http://localhost:3000/manland/webhook/issues/1#note_997"
                          Description := "coucou3" } }

/-- A merge-request comment by `manland` on `manland/webhook!6`, without
labels. -/
def sampleMergeComment : MergeCommentEvent :=
  { User := { Username := "manland" }
    Project := { PathWithNamespace := "manland/webhook"
                 WebURL := "http://localhost:3000/manland/webhook"
                 Visibility := "public" }
    MergeRequest := { IID := 6, Title := "Update README.md", AssigneeID := 1, AuthorID := 1,
                      Labels := [] }
    ObjectAttributes := { URL := "http://localhost:3000/manland/webhook/merge_requests/6#note_999"
                          Description := "coucou" } }

/-- A subscription of `channel` to `manland/webhook` with the given descriptor. -/
def sampleSub (channel features : String) : Subscription :=
  { ChannelID := channel, CreatorID := "1", Features := features,
    Repository := "manland/webhook" }

/-! ## Notions used to state the properties -/

/-- A DM-shaped record (specification, §3): users to notify and no channel. -/
def dmShaped (r : HandleWebhook) : Bool := !r.ToUsers.isEmpty && r.ToChannels.isEmpty

/-- A channel-shaped record (specification, §3): channels to post to and no
user. -/
def channelShaped (r : HandleWebhook) : Bool := !r.ToChannels.isEmpty && r.ToUsers.isEmpty

/-- The pair `(From, Message)` on which the Deduplicator compares records. -/
def notificationKey (r : HandleWebhook) : String × String := (r.From, r.Message)

/-- The distinct entries of a list, each at the place of its first occurrence. -/
def firstSeen : List (String × String) → List (String × String)
  | [] => []
  | k :: ks => k :: (firstSeen ks).filter (fun x => decide (x ≠ k))

/-- What the specification (§4.6) asks of the Deduplicator's output `out` for
the input `pre`: no two records of `out` share `From` and `Message`; the
`(From, Message)` pairs of `out` are those of `pre`, each at the place of its
first occurrence; the `ToUsers` (resp. `ToChannels`) of a record of `out` is
the concatenation, in the order of `pre`, of the `ToUsers` (resp. `ToChannels`)
of the records of `pre` sharing its `From` and `Message`; and a record of `pre`
that shares them with no other record is in `out` as it is. -/
def Deduplicated (pre out : List HandleWebhook) : Prop :=
  out.Pairwise (fun a b => ¬ (a.From = b.From ∧ a.Message = b.Message))
  ∧ out.map notificationKey = firstSeen (pre.map notificationKey)
  ∧ (∀ r ∈ out,
      r.ToUsers = (pre.filter (fun x => sameNotification r x)).flatMap (·.ToUsers)
      ∧ r.ToChannels = (pre.filter (fun x => sameNotification r x)).flatMap (·.ToChannels))
  ∧ (∀ r ∈ pre, pre.filter (fun x => sameNotification r x) = [r] → r ∈ out)

/-- A mention detector that reports `root` as mentioned when the comment body
holds an `@`. -/
def sampleMention : GitlabRetreiver → mentionDetails → Option HandleWebhook :=
  fun w d =>
    if d.body.data.contains '@' then
      some { Message := Sprintf "[%s](%s) mentioned you on [%s#%s](%s) - %s"
               [.str d.senderUsername, .str (w.GetUserURL d.senderUsername),
                .str d.pathWithNamespace, .str d.IID, .str d.URL, .str d.body]
             From := d.senderUsername
             ToUsers := ["root"]
             ToChannels := [] }
    else none

/-- The sample issue comment with the body `@root coucou3`. -/
def sampleIssueMentionComment : IssueCommentEvent :=
  { sampleIssueComment with
    ObjectAttributes := { URL := sampleIssueComment.ObjectAttributes.URL
                          Description := "@root coucou3" } }

/-- A mention detector whose record carries the text of the issue DM record
and is addressed to `manland`. -/
def sameTextMention : GitlabRetreiver → mentionDetails → Option HandleWebhook :=
  fun w d =>
    some { Message := Sprintf "[%s](%s) commented on your issue [%s#%s](%s)"
             [.str d.senderUsername, .str (w.GetUserURL d.senderUsername),
              .str d.pathWithNamespace, .str d.IID, .str d.URL]
           From := d.senderUsername
           ToUsers := ["manland"]
           ToChannels := [] }

/-- The distinct usernames of a list, each at its first place. -/
def distinctUsers : List String → List String
  | [] => []
  | u :: us => u :: (distinctUsers us).filter (fun x => decide (x ≠ u))

/-- The helpers of the specification around a deduplicator that, after
merging, also keeps each username of a record once. -/
def userCleaningHelpers : Helpers :=
  { handleMention := noMention
    anyEventLabelInSubs := anyEventLabelInSubs
    cleanWebhookHandlers := fun handlers =>
      (cleanWebhookHandlers handlers).map
        (fun r => { r with ToUsers := distinctUsers r.ToUsers })
    normalizeNamespacedProject := normalizeNamespacedProject
    IssueComments := Subscription.IssueComments
    MergeRequestComments := Subscription.MergeRequestComments }

/-- A merge-request comment that agrees with the sample issue comment on the
sender, the project, the IID, the title, the labels and the comment. -/
def sampleMergeTwin : MergeCommentEvent :=
  { User := sampleIssueComment.User
    Project := sampleIssueComment.Project
    MergeRequest := { IID := 1, Title := "test new issue", AssigneeID := 1, AuthorID := 1,
                      Labels := [{ Name := "bug" }] }
    ObjectAttributes := sampleIssueComment.ObjectAttributes }

/-- Subscriptions on which the two capability flags agree: both on, both off,
both on with a malformed label filter. -/
def sampleTwinSubs : List Subscription :=
  [sampleSub "channel1" "issue_comments,merge_request_comments",
   sampleSub "channel2" "pushes",
   sampleSub "channel3" "issue_comments,merge_request_comments,label:"]

/-- Modelled from the spec: the Notification Deduplicator (§4.6) together
with the removal of duplicate usernames that §4.2 places in it ("Duplicate
usernames are not removed at this stage (deduplication happens later, §4.6)"),
for `cleanWebhookHandlers`, defined outside `note.go`: the records are merged
as in §4.6, then each record keeps each of its usernames once, at its first
place. `note_test.go` expects this of the record whose two `ToUsers` are both
`root`. -/
def cleanWebhookHandlersDistinct (handlers : List HandleWebhook) : List HandleWebhook :=
  (cleanWebhookHandlers handlers).map
    (fun r => { Message := r.Message, From := r.From, ToUsers := distinctUsers r.ToUsers,
                ToChannels := r.ToChannels })

/-- The helpers as the specification describes them, with the Deduplicator
that also removes duplicate usernames, around a given mention detector. -/
def specHelpersDistinct
    (handleMention : GitlabRetreiver → mentionDetails → Option HandleWebhook) : Helpers :=
  { handleMention := handleMention
    anyEventLabelInSubs := anyEventLabelInSubs
    cleanWebhookHandlers := cleanWebhookHandlersDistinct
    normalizeNamespacedProject := normalizeNamespacedProject
    IssueComments := Subscription.IssueComments
    MergeRequestComments := Subscription.MergeRequestComments }

/-- What the specification (§4.6 with §4.2) asks of the output `out` of the
Deduplicator for the input `pre`: no two records of `out` share `From` and
`Message`; the `(From, Message)` pairs of `out` are those of `pre`, each at the
place of its first occurrence; the `ToUsers` of a record of `out` is the
concatenation, in the order of `pre`, of the `ToUsers` of the records of `pre`
sharing its `From` and `Message`, each username kept at its first place only,
and its `ToChannels` is the concatenation of their `ToChannels`; no record of
`out` names a user twice; a record of `pre` that shares `From` and `Message`
with no other record is in `out` with each of its usernames kept once, and as
it is when it names no user twice. -/
def DeduplicatedDistinct (pre out : List HandleWebhook) : Prop :=
  out.Pairwise (fun a b => ¬ (a.From = b.From ∧ a.Message = b.Message))
  ∧ out.map notificationKey = firstSeen (pre.map notificationKey)
  ∧ (∀ r ∈ out,
      r.ToUsers =
        distinctUsers ((pre.filter (fun x => sameNotification r x)).flatMap (·.ToUsers))
      ∧ r.ToChannels = (pre.filter (fun x => sameNotification r x)).flatMap (·.ToChannels))
  ∧ (∀ r ∈ out, r.ToUsers.Nodup)
  ∧ (∀ r ∈ pre, pre.filter (fun x => sameNotification r x) = [r] →
      { Message := r.Message, From := r.From, ToUsers := distinctUsers r.ToUsers,
        ToChannels := r.ToChannels } ∈ out)
  ∧ (∀ r ∈ pre, pre.filter (fun x => sameNotification r x) = [r] → r.ToUsers.Nodup → r ∈ out)

/-! ## Lemmas on the subscription loops -/

theorem utf8ByteSize_pos_iff (s : String) : s.utf8ByteSize > 0 ↔ s ≠ "" := by
  cases s with
  | mk data =>
    cases data with
    | nil => simp [String.utf8ByteSize, String.utf8ByteSize.go]
    | cons c cs =>
      have hc := Char.utf8Size_pos c
      have hne : (String.mk (c :: cs)) ≠ "" := by
        intro hh
        have hd := congrArg String.data hh
        simp at hd
      simp [String.utf8ByteSize, String.utf8ByteSize.go, hne]
      omega

theorem issueCommentStep_eq (h : Helpers) (event : IssueCommentEvent) :
    issueCommentStep h event =
      subscriptionStep h.IssueComments (fun sub => h.anyEventLabelInSubs sub event.Issue.Labels) :=
  rfl

theorem mergeRequestCommentStep_eq (h : Helpers) (event : MergeCommentEvent) :
    mergeRequestCommentStep h event =
      subscriptionStep h.MergeRequestComments
        (fun sub => h.anyEventLabelInSubs sub event.MergeRequest.Labels) :=
  rfl

/-- The loop adds to `toChannels` the channels of the capable subscriptions
whose check is ok, and to `warnings` the non-empty warnings of the capable
subscriptions whose check is not ok, both in the order of the subscriptions. -/
theorem subscriptionStep_foldl (cap : Subscription → Bool) (check : Subscription → Bool × String)
    (subs : List Subscription) (st : List String × List String) :
    subs.foldl (subscriptionStep cap check) st =
      (st.1 ++ (subs.filter (fun sub => cap sub && (check sub).1)).map (·.ChannelID),
       st.2 ++ (subs.filter
          (fun sub => cap sub && !(check sub).1 && decide ((check sub).2 ≠ ""))).map
            (fun sub => (check sub).2)) := by
  induction subs generalizing st with
  | nil => simp
  | cons sub rest ih =>
    rw [List.foldl_cons, ih]
    unfold subscriptionStep
    by_cases hcap : cap sub = true
    · by_cases hok : (check sub).1 = true
      · simp [hcap, hok]
      · by_cases hw : (check sub).2 = ""
        · simp [hcap, hok, hw, String.utf8ByteSize, String.utf8ByteSize.go]
        · have hpos := (utf8ByteSize_pos_iff _).2 hw
          simp [hcap, hok, hw, hpos]
    · simp [hcap]

theorem issueCommentLoop_eq (h : Helpers) (w : GitlabRetreiver) (ctx : Context)
    (event : IssueCommentEvent) :
    issueCommentLoop h w ctx event =
      (((subscribedChannels h w ctx event.Project).filter
          (fun sub => h.IssueComments sub &&
            (h.anyEventLabelInSubs sub event.Issue.Labels).1)).map (·.ChannelID),
       ((subscribedChannels h w ctx event.Project).filter
          (fun sub => h.IssueComments sub && !(h.anyEventLabelInSubs sub event.Issue.Labels).1 &&
            decide ((h.anyEventLabelInSubs sub event.Issue.Labels).2 ≠ ""))).map
          (fun sub => (h.anyEventLabelInSubs sub event.Issue.Labels).2)) := by
  unfold issueCommentLoop
  rw [issueCommentStep_eq, subscriptionStep_foldl]
  simp

theorem mergeRequestCommentLoop_eq (h : Helpers) (w : GitlabRetreiver) (ctx : Context)
    (event : MergeCommentEvent) :
    mergeRequestCommentLoop h w ctx event =
      (((subscribedChannels h w ctx event.Project).filter
          (fun sub => h.MergeRequestComments sub &&
            (h.anyEventLabelInSubs sub event.MergeRequest.Labels).1)).map (·.ChannelID),
       ((subscribedChannels h w ctx event.Project).filter
          (fun sub => h.MergeRequestComments sub &&
            !(h.anyEventLabelInSubs sub event.MergeRequest.Labels).1 &&
            decide ((h.anyEventLabelInSubs sub event.MergeRequest.Labels).2 ≠ ""))).map
          (fun sub => (h.anyEventLabelInSubs sub event.MergeRequest.Labels).2)) := by
  unfold mergeRequestCommentLoop
  rw [mergeRequestCommentStep_eq, subscriptionStep_foldl]
  simp

theorem subscribedChannels_withSubscriptions (h : Helpers) (w : GitlabRetreiver) (ctx : Context)
    (repo : EventProject) (subs : List Subscription) :
    subscribedChannels h (withSubscriptions w subs) ctx repo = subs :=
  rfl

/-! ## C1: channel fan-out -/

/-- C1. The channel list built by `handleChannelIssueComment` (resp.
`handleChannelMergeRequestComment`) is the list of the `ChannelID`s of the
subscriptions returned by the store whose flag `IssueComments()` (resp.
`MergeRequestComments()`) is true and for which `anyEventLabelInSubs` is ok, in
the order of the subscriptions; no channel id is removed or collapsed: an id
occurs in the list as often as there are such subscriptions carrying it; the
record of the channel step, when there is one, carries this list. -/
theorem channel_fan_out (h : Helpers) (w : GitlabRetreiver) (ctx : Context)
    (issue : IssueCommentEvent) (mr : MergeCommentEvent) :
    (issueCommentLoop h w ctx issue).1 =
        ((subscribedChannels h w ctx issue.Project).filter
          (fun sub => h.IssueComments sub &&
            (h.anyEventLabelInSubs sub issue.Issue.Labels).1)).map (·.ChannelID)
    ∧ (mergeRequestCommentLoop h w ctx mr).1 =
        ((subscribedChannels h w ctx mr.Project).filter
          (fun sub => h.MergeRequestComments sub &&
            (h.anyEventLabelInSubs sub mr.MergeRequest.Labels).1)).map (·.ChannelID)
    ∧ (∀ c : String, (issueCommentLoop h w ctx issue).1.count c =
        (subscribedChannels h w ctx issue.Project).countP
          (fun sub => h.IssueComments sub &&
            (h.anyEventLabelInSubs sub issue.Issue.Labels).1 && sub.ChannelID == c))
    ∧ (∀ c : String, (mergeRequestCommentLoop h w ctx mr).1.count c =
        (subscribedChannels h w ctx mr.Project).countP
          (fun sub => h.MergeRequestComments sub &&
            (h.anyEventLabelInSubs sub mr.MergeRequest.Labels).1 && sub.ChannelID == c))
    ∧ (∀ r ∈ (handleChannelIssueComment h w ctx issue).1, r.ToChannels =
        ((subscribedChannels h w ctx issue.Project).filter
          (fun sub => h.IssueComments sub &&
            (h.anyEventLabelInSubs sub issue.Issue.Labels).1)).map (·.ChannelID))
    ∧ (∀ r ∈ (handleChannelMergeRequestComment h w ctx mr).1, r.ToChannels =
        ((subscribedChannels h w ctx mr.Project).filter
          (fun sub => h.MergeRequestComments sub &&
            (h.anyEventLabelInSubs sub mr.MergeRequest.Labels).1)).map (·.ChannelID)) := by
  refine ⟨?_, ?_, ?_, ?_, ?_, ?_⟩
  · rw [issueCommentLoop_eq]
  · rw [mergeRequestCommentLoop_eq]
  · intro c
    rw [issueCommentLoop_eq]
    simp only [List.count, List.countP_map, List.countP_filter]
    congr 1
    funext sub
    simp [Bool.and_comm]
  · intro c
    rw [mergeRequestCommentLoop_eq]
    simp only [List.count, List.countP_map, List.countP_filter]
    congr 1
    funext sub
    simp [Bool.and_comm]
  · intro r hr
    unfold handleChannelIssueComment at hr
    simp only [List.nil_append] at hr
    split at hr
    · rw [List.mem_singleton] at hr
      rw [hr, issueCommentLoop_eq]
    · simp at hr
  · intro r hr
    unfold handleChannelMergeRequestComment at hr
    simp only [List.nil_append] at hr
    split at hr
    · rw [List.mem_singleton] at hr
      rw [hr, mergeRequestCommentLoop_eq]
    · simp at hr

/-! ## C2: the recipients of an issue comment -/

theorem take_succ_set {α : Type} (l : List α) (i : Nat) (v : α) (hi : i < l.length) :
    (l.set i v).take (i + 1) = l.take i ++ [v] := by
  rw [List.set_eq_take_append_cons_drop, if_pos hi]
  have hlen : (l.take i).length = i := by simp; omega
  rw [List.take_append_eq_append_take, hlen]
  simp [List.take_of_length_le, hlen]

/-- The loop invariant of lines 31-33: the cells from `index` on receive the
usernames of the assignees, the other cells are unchanged. -/
theorem fillAssignees_eq (w : GitlabRetreiver) (ids : List Int) :
    ∀ (index : Nat) (toUsers : List String), index + ids.length ≤ toUsers.length →
      fillAssignees w ids index toUsers =
        toUsers.take index ++ ids.map w.GetUsernameByID ++
          toUsers.drop (index + ids.length) := by
  induction ids with
  | nil => intro index toUsers _; simp [fillAssignees]
  | cons a rest ih =>
    intro index toUsers hlen
    simp only [List.length_cons] at hlen
    have hi : index < toUsers.length := by omega
    rw [fillAssignees, ih (index + 1) _ (by simp; omega)]
    rw [take_succ_set _ _ _ hi, List.drop_set_of_lt _ _ (by omega)]
    simp [List.length_cons]
    congr 1
    omega

theorem issueToUsers_eq (w : GitlabRetreiver) (event : IssueCommentEvent) :
    issueToUsers w event =
      event.Issue.AssigneeIDs.map w.GetUsernameByID ++
        [w.GetUsernameByID event.Issue.AuthorID] := by
  unfold issueToUsers
  simp only
  rw [fillAssignees_eq w _ 0 _ (by simp)]
  simp [List.set_eq_take_append_cons_drop]

/-- The first record of `handleDMIssueComment` is the DM record, with or
without a mention behind it. -/
theorem handleDMIssueComment_head (h : Helpers) (w : GitlabRetreiver)
    (event : IssueCommentEvent) :
    (handleDMIssueComment h w event).1.head? =
      some { Message := issueDMMessage w event, From := event.User.Username,
             ToUsers := issueToUsers w event, ToChannels := [] } := by
  unfold handleDMIssueComment
  simp only
  split <;> rfl

/-- C2. The `ToUsers` list of the DM record built by `handleDMIssueComment` is
the list of the usernames of the assignees, in their order, followed by the
username of the author: it has one entry more than there are assignees, the
author is its last entry, the assignee at position `i` is its entry `i`, and
nothing is removed from it. -/
theorem issue_recipient_list (h : Helpers) (w : GitlabRetreiver) (event : IssueCommentEvent) :
    (handleDMIssueComment h w event).1.head?.map (·.ToUsers) =
        some (event.Issue.AssigneeIDs.map w.GetUsernameByID ++
          [w.GetUsernameByID event.Issue.AuthorID])
    ∧ (issueToUsers w event).length = event.Issue.AssigneeIDs.length + 1
    ∧ (issueToUsers w event).getLast? = some (w.GetUsernameByID event.Issue.AuthorID)
    ∧ (issueToUsers w event).take event.Issue.AssigneeIDs.length =
        event.Issue.AssigneeIDs.map w.GetUsernameByID := by
  refine ⟨?_, ?_, ?_, ?_⟩
  · rw [handleDMIssueComment_head, Option.map_some', issueToUsers_eq]
  · rw [issueToUsers_eq]; simp
  · rw [issueToUsers_eq]; simp
  · rw [issueToUsers_eq]; simp

/-! ## The exported handlers, unfolded -/

theorem HandleIssueComment_eq (h : Helpers) (w : GitlabRetreiver) (ctx : Context)
    (event : IssueCommentEvent) :
    HandleIssueComment h w ctx event =
      (some (h.cleanWebhookHandlers
          ((handleDMIssueComment h w event).1 ++ (handleChannelIssueComment h w ctx event).1)),
       (issueCommentLoop h w ctx event).2, none) :=
  rfl

theorem HandleMergeRequestComment_eq (h : Helpers) (w : GitlabRetreiver) (ctx : Context)
    (event : MergeCommentEvent) :
    HandleMergeRequestComment h w ctx event =
      (some (h.cleanWebhookHandlers
          ((handleDMMergeRequestComment h w event).1 ++
            (handleChannelMergeRequestComment h w ctx event).1)),
       (mergeRequestCommentLoop h w ctx event).2, none) :=
  rfl

/-- The loop over `pre ++ sub :: post`, cut at `sub`. -/
theorem subscriptionStep_foldl_split (cap : Subscription → Bool)
    (check : Subscription → Bool × String) (pre post : List Subscription) (sub : Subscription) :
    (pre ++ sub :: post).foldl (subscriptionStep cap check) ([], []) =
      (((pre.foldl (subscriptionStep cap check) ([], [])).1 ++
          (subscriptionStep cap check ([], []) sub).1) ++
          (post.foldl (subscriptionStep cap check) ([], [])).1,
       ((pre.foldl (subscriptionStep cap check) ([], [])).2 ++
          (subscriptionStep cap check ([], []) sub).2) ++
          (post.foldl (subscriptionStep cap check) ([], [])).2) := by
  have hone : subscriptionStep cap check ([], []) sub =
      [sub].foldl (subscriptionStep cap check) ([], []) := rfl
  rw [hone]
  simp only [subscriptionStep_foldl, List.filter_append, List.map_append, List.filter_cons,
    List.filter_nil, List.nil_append]
  split <;> split <;> simp

/-! ## C3: a bare `label:` token -/

/-- C3, as amended. Take a label check that answers not-ok with the warning
`each label must be wrapped in quotes, e.g. label:"bug"` for every descriptor
holding a bare `label:` token. Then a subscription of the store's list that
holds such a token never contributes its channel; when it has the capability
flag of the event kind it yields exactly one copy of that warning, at its place
among the warnings of the other subscriptions, and when it has not it yields no
warning; so for `HandleIssueComment` and for `HandleMergeRequestComment`. -/
theorem bare_label_warning (h : Helpers) (w : GitlabRetreiver) (ctx : Context)
    (issue : IssueCommentEvent) (mr : MergeCommentEvent) (pre post : List Subscription)
    (subI subM : Subscription)
    (hcheck : ∀ s ls, hasBareLabel s.Features = true →
      h.anyEventLabelInSubs s ls = (false, labelWarning))
    (hbareI : hasBareLabel subI.Features = true)
    (hbareM : hasBareLabel subM.Features = true) :
    (issueCommentLoop h (withSubscriptions w (pre ++ subI :: post)) ctx issue).1 =
        (issueCommentLoop h (withSubscriptions w pre) ctx issue).1 ++
          (issueCommentLoop h (withSubscriptions w post) ctx issue).1
    ∧ (h.IssueComments subI = true →
        (HandleIssueComment h (withSubscriptions w (pre ++ subI :: post)) ctx issue).2.1 =
          (HandleIssueComment h (withSubscriptions w pre) ctx issue).2.1 ++
            labelWarning :: (HandleIssueComment h (withSubscriptions w post) ctx issue).2.1)
    ∧ (h.IssueComments subI = false →
        (HandleIssueComment h (withSubscriptions w (pre ++ subI :: post)) ctx issue).2.1 =
          (HandleIssueComment h (withSubscriptions w pre) ctx issue).2.1 ++
            (HandleIssueComment h (withSubscriptions w post) ctx issue).2.1)
    ∧ (mergeRequestCommentLoop h (withSubscriptions w (pre ++ subM :: post)) ctx mr).1 =
        (mergeRequestCommentLoop h (withSubscriptions w pre) ctx mr).1 ++
          (mergeRequestCommentLoop h (withSubscriptions w post) ctx mr).1
    ∧ (h.MergeRequestComments subM = true →
        (HandleMergeRequestComment h (withSubscriptions w (pre ++ subM :: post)) ctx mr).2.1 =
          (HandleMergeRequestComment h (withSubscriptions w pre) ctx mr).2.1 ++
            labelWarning ::
              (HandleMergeRequestComment h (withSubscriptions w post) ctx mr).2.1)
    ∧ (h.MergeRequestComments subM = false →
        (HandleMergeRequestComment h (withSubscriptions w (pre ++ subM :: post)) ctx mr).2.1 =
          (HandleMergeRequestComment h (withSubscriptions w pre) ctx mr).2.1 ++
            (HandleMergeRequestComment h (withSubscriptions w post) ctx mr).2.1) := by
  have hpos : labelWarning.utf8ByteSize > 0 := (utf8ByteSize_pos_iff _).2 (by decide)
  have key : ∀ (cap : Subscription → Bool) (labels : List EventLabel) (sub : Subscription),
      hasBareLabel sub.Features = true →
      subscriptionStep cap (fun s => h.anyEventLabelInSubs s labels) ([], []) sub =
        ([], if cap sub = true then [labelWarning] else []) := by
    intro cap labels sub hbare
    by_cases hcap : cap sub = true
    · simp [subscriptionStep, hcap, hcheck sub _ hbare, hpos]
    · simp [subscriptionStep, hcap]
  have hI := key h.IssueComments issue.Issue.Labels subI hbareI
  have hM := key h.MergeRequestComments mr.MergeRequest.Labels subM hbareM
  simp only [HandleIssueComment_eq, HandleMergeRequestComment_eq, issueCommentLoop,
    mergeRequestCommentLoop, subscribedChannels_withSubscriptions, issueCommentStep_eq,
    mergeRequestCommentStep_eq, subscriptionStep_foldl_split, hI, hM]
  refine ⟨by simp, ?_, ?_, by simp, ?_, ?_⟩ <;> intro hcap <;> simp [hcap]

/-- C3, as stated, fails: the store returns one subscription whose descriptor
is `merge_request_comments,label:` (bare `label:` token) and the label check
warns on every bare token, yet `HandleIssueComment` returns no warning, the
subscription lacking the flag `issue_comments`; likewise for the descriptor
`issue_comments,label:` and `HandleMergeRequestComment`. -/
theorem bare_label_without_capability_is_silent :
    (∀ s ls, hasBareLabel s.Features = true →
      (specHelpers noMention).anyEventLabelInSubs s ls = (false, labelWarning))
    ∧ hasBareLabel (sampleSub "channel1" "merge_request_comments,label:").Features = true
    ∧ (HandleIssueComment (specHelpers noMention)
        (sampleRetreiver [sampleSub "channel1" "merge_request_comments,label:"])
        sampleContext sampleIssueComment).2.1 = []
    ∧ hasBareLabel (sampleSub "channel1" "issue_comments,label:").Features = true
    ∧ (HandleMergeRequestComment (specHelpers noMention)
        (sampleRetreiver [sampleSub "channel1" "issue_comments,label:"])
        sampleContext sampleMergeComment).2.1 = [] := by
  refine ⟨?_, by decide, by decide, by decide, by decide⟩
  intro s ls hs
  simp [specHelpers, anyEventLabelInSubs, hs]

/-- Witness of C3 as amended: the two malformed subscriptions of `note_test.go`,
each between two well-formed subscriptions of the same kind. -/
theorem bare_label_warning_witness :
    (∀ s ls, hasBareLabel s.Features = true →
      (specHelpers noMention).anyEventLabelInSubs s ls = (false, labelWarning))
    ∧ hasBareLabel (sampleSub "channel2" "issue_comments,label:").Features = true
    ∧ hasBareLabel (sampleSub "channel2" "merge_request_comments,label:").Features = true
    ∧ (HandleIssueComment (specHelpers noMention)
          (withSubscriptions (sampleRetreiver [])
            ([sampleSub "channel1" "issue_comments"] ++
              sampleSub "channel2" "issue_comments,label:" ::
              [sampleSub "channel3" "issue_comments"]))
          sampleContext sampleIssueComment).2.1 =
        (HandleIssueComment (specHelpers noMention)
          (withSubscriptions (sampleRetreiver []) [sampleSub "channel1" "issue_comments"])
          sampleContext sampleIssueComment).2.1 ++
          labelWarning :: (HandleIssueComment (specHelpers noMention)
            (withSubscriptions (sampleRetreiver []) [sampleSub "channel3" "issue_comments"])
            sampleContext sampleIssueComment).2.1
    ∧ (HandleMergeRequestComment (specHelpers noMention)
          (withSubscriptions (sampleRetreiver [])
            ([sampleSub "channel1" "issue_comments"] ++
              sampleSub "channel2" "merge_request_comments,label:" ::
              [sampleSub "channel3" "issue_comments"]))
          sampleContext sampleMergeComment).2.1 =
        (HandleMergeRequestComment (specHelpers noMention)
          (withSubscriptions (sampleRetreiver []) [sampleSub "channel1" "issue_comments"])
          sampleContext sampleMergeComment).2.1 ++
          labelWarning :: (HandleMergeRequestComment (specHelpers noMention)
            (withSubscriptions (sampleRetreiver []) [sampleSub "channel3" "issue_comments"])
            sampleContext sampleMergeComment).2.1
    ∧ issueCommentLoop (specHelpers noMention)
        (sampleRetreiver [sampleSub "channel1" "issue_comments",
          sampleSub "channel2" "issue_comments,label:", sampleSub "channel3" "issue_comments"])
        sampleContext sampleIssueComment = (["channel1", "channel3"], [labelWarning]) :=
  have hcheck : ∀ s ls, hasBareLabel s.Features = true →
      (specHelpers noMention).anyEventLabelInSubs s ls = (false, labelWarning) := by
    intro s ls hs
    simp [specHelpers, anyEventLabelInSubs, hs]
  have hw := bare_label_warning (specHelpers noMention) (sampleRetreiver []) sampleContext
    sampleIssueComment sampleMergeComment [sampleSub "channel1" "issue_comments"]
    [sampleSub "channel3" "issue_comments"]
    (sampleSub "channel2" "issue_comments,label:")
    (sampleSub "channel2" "merge_request_comments,label:")
    hcheck (by decide) (by decide)
  ⟨hcheck, by decide, by decide, hw.2.1 (by decide), hw.2.2.2.2.1 (by decide), by decide⟩

/-! ## C4: capability gating -/

/-- A subscription without the capability leaves the loop state as it is. -/
theorem subscriptionStep_foldl_skip (cap : Subscription → Bool)
    (check : Subscription → Bool × String) (pre post : List Subscription) (sub : Subscription)
    (hcap : cap sub = false) (st : List String × List String) :
    (pre ++ sub :: post).foldl (subscriptionStep cap check) st =
      (pre ++ post).foldl (subscriptionStep cap check) st := by
  simp only [List.foldl_append, List.foldl_cons]
  congr 1
  simp [subscriptionStep, hcap]

/-- C4. A subscription whose capability flag for the event kind is off
(`IssueComments()` false for an issue comment, `MergeRequestComments()` false
for a merge-request comment) adds nothing: with it anywhere in the store's list
or without it, the channel list and the warning list of the loop, the whole
result of the channel step and the warnings of the dispatch are the same,
whatever the label check answers for it. -/
theorem capability_gating (h : Helpers) (w : GitlabRetreiver) (ctx : Context)
    (issue : IssueCommentEvent) (mr : MergeCommentEvent) (pre post : List Subscription)
    (subI subM : Subscription)
    (hI : h.IssueComments subI = false) (hM : h.MergeRequestComments subM = false) :
    issueCommentLoop h (withSubscriptions w (pre ++ subI :: post)) ctx issue =
        issueCommentLoop h (withSubscriptions w (pre ++ post)) ctx issue
    ∧ handleChannelIssueComment h (withSubscriptions w (pre ++ subI :: post)) ctx issue =
        handleChannelIssueComment h (withSubscriptions w (pre ++ post)) ctx issue
    ∧ (HandleIssueComment h (withSubscriptions w (pre ++ subI :: post)) ctx issue).2.1 =
        (HandleIssueComment h (withSubscriptions w (pre ++ post)) ctx issue).2.1
    ∧ mergeRequestCommentLoop h (withSubscriptions w (pre ++ subM :: post)) ctx mr =
        mergeRequestCommentLoop h (withSubscriptions w (pre ++ post)) ctx mr
    ∧ handleChannelMergeRequestComment h (withSubscriptions w (pre ++ subM :: post)) ctx mr =
        handleChannelMergeRequestComment h (withSubscriptions w (pre ++ post)) ctx mr
    ∧ (HandleMergeRequestComment h (withSubscriptions w (pre ++ subM :: post)) ctx mr).2.1 =
        (HandleMergeRequestComment h (withSubscriptions w (pre ++ post)) ctx mr).2.1 := by
  have hli : issueCommentLoop h (withSubscriptions w (pre ++ subI :: post)) ctx issue =
      issueCommentLoop h (withSubscriptions w (pre ++ post)) ctx issue := by
    simp only [issueCommentLoop, subscribedChannels_withSubscriptions, issueCommentStep_eq]
    exact subscriptionStep_foldl_skip _ _ pre post subI hI _
  have hlm : mergeRequestCommentLoop h (withSubscriptions w (pre ++ subM :: post)) ctx mr =
      mergeRequestCommentLoop h (withSubscriptions w (pre ++ post)) ctx mr := by
    simp only [mergeRequestCommentLoop, subscribedChannels_withSubscriptions,
      mergeRequestCommentStep_eq]
    exact subscriptionStep_foldl_skip _ _ pre post subM hM _
  refine ⟨hli, ?_, ?_, hlm, ?_, ?_⟩
  · simp only [handleChannelIssueComment, hli]
    rfl
  · simp only [HandleIssueComment_eq, hli]
  · simp only [handleChannelMergeRequestComment, hlm]
    rfl
  · simp only [HandleMergeRequestComment_eq, hlm]

/-- Witness of C4: a subscription to merge-request comments, with a malformed
label filter, between two subscriptions to issue comments, and the converse. -/
theorem capability_gating_witness :
    (specHelpers noMention).IssueComments
        (sampleSub "channel2" "merge_request_comments,label:") = false
    ∧ (specHelpers noMention).MergeRequestComments
        (sampleSub "channel2" "issue_comments,label:") = false
    ∧ (issueCommentLoop (specHelpers noMention)
          (withSubscriptions (sampleRetreiver [])
            ([sampleSub "channel1" "issue_comments"] ++
              sampleSub "channel2" "merge_request_comments,label:" ::
              [sampleSub "channel3" "issue_comments"]))
          sampleContext sampleIssueComment =
        issueCommentLoop (specHelpers noMention)
          (withSubscriptions (sampleRetreiver [])
            ([sampleSub "channel1" "issue_comments"] ++ [sampleSub "channel3" "issue_comments"]))
          sampleContext sampleIssueComment
      ∧ handleChannelIssueComment (specHelpers noMention)
          (withSubscriptions (sampleRetreiver [])
            ([sampleSub "channel1" "issue_comments"] ++
              sampleSub "channel2" "merge_request_comments,label:" ::
              [sampleSub "channel3" "issue_comments"]))
          sampleContext sampleIssueComment =
        handleChannelIssueComment (specHelpers noMention)
          (withSubscriptions (sampleRetreiver [])
            ([sampleSub "channel1" "issue_comments"] ++ [sampleSub "channel3" "issue_comments"]))
          sampleContext sampleIssueComment
      ∧ (HandleIssueComment (specHelpers noMention)
          (withSubscriptions (sampleRetreiver [])
            ([sampleSub "channel1" "issue_comments"] ++
              sampleSub "channel2" "merge_request_comments,label:" ::
              [sampleSub "channel3" "issue_comments"]))
          sampleContext sampleIssueComment).2.1 =
        (HandleIssueComment (specHelpers noMention)
          (withSubscriptions (sampleRetreiver [])
            ([sampleSub "channel1" "issue_comments"] ++ [sampleSub "channel3" "issue_comments"]))
          sampleContext sampleIssueComment).2.1
      ∧ mergeRequestCommentLoop (specHelpers noMention)
          (withSubscriptions (sampleRetreiver [])
            ([sampleSub "channel1" "issue_comments"] ++
              sampleSub "channel2" "issue_comments,label:" ::
              [sampleSub "channel3" "issue_comments"]))
          sampleContext sampleMergeComment =
        mergeRequestCommentLoop (specHelpers noMention)
          (withSubscriptions (sampleRetreiver [])
            ([sampleSub "channel1" "issue_comments"] ++ [sampleSub "channel3" "issue_comments"]))
          sampleContext sampleMergeComment
      ∧ handleChannelMergeRequestComment (specHelpers noMention)
          (withSubscriptions (sampleRetreiver [])
            ([sampleSub "channel1" "issue_comments"] ++
              sampleSub "channel2" "issue_comments,label:" ::
              [sampleSub "channel3" "issue_comments"]))
          sampleContext sampleMergeComment =
        handleChannelMergeRequestComment (specHelpers noMention)
          (withSubscriptions (sampleRetreiver [])
            ([sampleSub "channel1" "issue_comments"] ++ [sampleSub "channel3" "issue_comments"]))
          sampleContext sampleMergeComment
      ∧ (HandleMergeRequestComment (specHelpers noMention)
          (withSubscriptions (sampleRetreiver [])
            ([sampleSub "channel1" "issue_comments"] ++
              sampleSub "channel2" "issue_comments,label:" ::
              [sampleSub "channel3" "issue_comments"]))
          sampleContext sampleMergeComment).2.1 =
        (HandleMergeRequestComment (specHelpers noMention)
          (withSubscriptions (sampleRetreiver [])
            ([sampleSub "channel1" "issue_comments"] ++ [sampleSub "channel3" "issue_comments"]))
          sampleContext sampleMergeComment).2.1)
    ∧ issueCommentLoop (specHelpers noMention)
        (sampleRetreiver [sampleSub "channel1" "issue_comments",
          sampleSub "channel2" "merge_request_comments,label:",
          sampleSub "channel3" "issue_comments"])
        sampleContext sampleIssueComment = (["channel1", "channel3"], []) :=
  ⟨by decide, by decide,
    capability_gating (specHelpers noMention) (sampleRetreiver []) sampleContext
      sampleIssueComment sampleMergeComment [sampleSub "channel1" "issue_comments"]
      [sampleSub "channel3" "issue_comments"]
      (sampleSub "channel2" "merge_request_comments,label:")
      (sampleSub "channel2" "issue_comments,label:") (by decide) (by decide),
    by decide⟩

/-! ## C5: warning accumulation -/

/-- C5. The warnings returned by `HandleIssueComment` (resp.
`HandleMergeRequestComment`) are, in the order of the subscriptions, the
warning texts that `anyEventLabelInSubs` gives for the subscriptions that have
the capability flag, are not ok and carry a non-empty warning, one entry per
such subscription, equal texts included; the channel list holds the channels
of the capable subscriptions that are ok, so a capable subscription that is not
ok with an empty warning appears in neither list. -/
theorem warning_accumulation (h : Helpers) (w : GitlabRetreiver) (ctx : Context)
    (issue : IssueCommentEvent) (mr : MergeCommentEvent) :
    (HandleIssueComment h w ctx issue).2.1 =
        ((subscribedChannels h w ctx issue.Project).filter
          (fun sub => h.IssueComments sub && !(h.anyEventLabelInSubs sub issue.Issue.Labels).1 &&
            decide ((h.anyEventLabelInSubs sub issue.Issue.Labels).2 ≠ ""))).map
          (fun sub => (h.anyEventLabelInSubs sub issue.Issue.Labels).2)
    ∧ (handleChannelIssueComment h w ctx issue).2.1 = (HandleIssueComment h w ctx issue).2.1
    ∧ (issueCommentLoop h w ctx issue).1 =
        ((subscribedChannels h w ctx issue.Project).filter
          (fun sub => h.IssueComments sub &&
            (h.anyEventLabelInSubs sub issue.Issue.Labels).1)).map (·.ChannelID)
    ∧ (HandleMergeRequestComment h w ctx mr).2.1 =
        ((subscribedChannels h w ctx mr.Project).filter
          (fun sub => h.MergeRequestComments sub &&
            !(h.anyEventLabelInSubs sub mr.MergeRequest.Labels).1 &&
            decide ((h.anyEventLabelInSubs sub mr.MergeRequest.Labels).2 ≠ ""))).map
          (fun sub => (h.anyEventLabelInSubs sub mr.MergeRequest.Labels).2)
    ∧ (handleChannelMergeRequestComment h w ctx mr).2.1 =
        (HandleMergeRequestComment h w ctx mr).2.1
    ∧ (mergeRequestCommentLoop h w ctx mr).1 =
        ((subscribedChannels h w ctx mr.Project).filter
          (fun sub => h.MergeRequestComments sub &&
            (h.anyEventLabelInSubs sub mr.MergeRequest.Labels).1)).map (·.ChannelID) := by
  refine ⟨?_, rfl, ?_, ?_, rfl, ?_⟩
  · rw [HandleIssueComment_eq, issueCommentLoop_eq]
  · rw [issueCommentLoop_eq]
  · rw [HandleMergeRequestComment_eq, mergeRequestCommentLoop_eq]
  · rw [mergeRequestCommentLoop_eq]

/-! ## C6: the channel record -/

/-- C6. The channel step produces no record when the computed channel list is
empty and exactly one when it is not, never more; that record has the comment
author's username as `From`, the channel message as `Message`, the computed
channel list as `ToChannels` and an empty `ToUsers`. -/
theorem channel_record_existence (h : Helpers) (w : GitlabRetreiver) (ctx : Context)
    (issue : IssueCommentEvent) (mr : MergeCommentEvent) :
    (handleChannelIssueComment h w ctx issue).1 =
        (if (issueCommentLoop h w ctx issue).1 = [] then []
         else [{ From := issue.User.Username
                 Message := channelMessage w issue.User.Username issue.Project issue.Issue.IID
                   issue.Issue.Title issue.ObjectAttributes.URL
                   issue.ObjectAttributes.Description
                 ToUsers := []
                 ToChannels := (issueCommentLoop h w ctx issue).1 }])
    ∧ (handleChannelIssueComment h w ctx issue).1.length ≤ 1
    ∧ (handleChannelMergeRequestComment h w ctx mr).1 =
        (if (mergeRequestCommentLoop h w ctx mr).1 = [] then []
         else [{ From := mr.User.Username
                 Message := channelMessage w mr.User.Username mr.Project mr.MergeRequest.IID
                   mr.MergeRequest.Title mr.ObjectAttributes.URL mr.ObjectAttributes.Description
                 ToUsers := []
                 ToChannels := (mergeRequestCommentLoop h w ctx mr).1 }])
    ∧ (handleChannelMergeRequestComment h w ctx mr).1.length ≤ 1 := by
  have hi : (handleChannelIssueComment h w ctx issue).1 =
      (if (issueCommentLoop h w ctx issue).1 = [] then []
       else [{ From := issue.User.Username
               Message := channelMessage w issue.User.Username issue.Project issue.Issue.IID
                 issue.Issue.Title issue.ObjectAttributes.URL
                 issue.ObjectAttributes.Description
               ToUsers := []
               ToChannels := (issueCommentLoop h w ctx issue).1 }]) := by
    unfold handleChannelIssueComment
    by_cases hc : (issueCommentLoop h w ctx issue).1 = []
    · simp [hc]
    · simp [hc, List.length_pos]
  have hm : (handleChannelMergeRequestComment h w ctx mr).1 =
      (if (mergeRequestCommentLoop h w ctx mr).1 = [] then []
       else [{ From := mr.User.Username
               Message := channelMessage w mr.User.Username mr.Project mr.MergeRequest.IID
                 mr.MergeRequest.Title mr.ObjectAttributes.URL mr.ObjectAttributes.Description
               ToUsers := []
               ToChannels := (mergeRequestCommentLoop h w ctx mr).1 }]) := by
    unfold handleChannelMergeRequestComment
    by_cases hc : (mergeRequestCommentLoop h w ctx mr).1 = []
    · simp [hc]
    · simp [hc, List.length_pos]
  refine ⟨hi, ?_, hm, ?_⟩
  · rw [hi]; split <;> simp
  · rw [hm]; split <;> simp

/-! ## C7: label matching -/

/-- No token of the descriptor is a label-filter token: the filter is well
formed and names nothing. -/
theorem no_label_tokens (features : String)
    (hnone : ∀ token ∈ featureTokens features, labelArg token = none) :
    hasBareLabel features = false ∧ labelNames features = [] := by
  constructor
  · unfold hasBareLabel
    rw [Bool.eq_false_iff]
    intro hany
    rw [List.any_eq_true] at hany
    obtain ⟨t, ht, hb⟩ := hany
    simp [isBareLabel, hnone t ht] at hb
  · unfold labelNames
    rw [List.filterMap_eq_nil_iff]
    intro t ht
    simp [hnone t ht]

/-- The label check on a descriptor without a bare `label:` token. -/
theorem anyEventLabelInSubs_wellFormed (sub : Subscription) (eventLabels : List EventLabel)
    (hwell : hasBareLabel sub.Features = false) :
    ((anyEventLabelInSubs sub eventLabels).1 = true ↔
        labelNames sub.Features = [] ∨
          ∃ n ∈ labelNames sub.Features, ∃ l ∈ eventLabels, l.Name = n)
    ∧ (anyEventLabelInSubs sub eventLabels).2 = "" := by
  unfold anyEventLabelInSubs
  rw [hwell]
  by_cases hn : labelNames sub.Features = []
  · simp [hn]
  · simp only [Bool.false_eq_true, if_false, List.isEmpty_iff, hn, false_or, and_true]
    rw [List.any_eq_true]
    constructor
    · rintro ⟨l, hl, hc⟩
      exact ⟨l.Name, by simpa using hc, l, hl, rfl⟩
    · rintro ⟨n, hn', l, hl, rfl⟩
      exact ⟨l, hl, by simpa using hn'⟩

/-- One turn of a loop on a capable subscription with a well-formed filter:
the channel is added when the check is ok, and nothing changes otherwise. -/
theorem subscriptionStep_wellFormed (cap : Subscription → Bool) (eventLabels : List EventLabel)
    (sub : Subscription) (st : List String × List String) (hcap : cap sub = true)
    (hwell : hasBareLabel sub.Features = false) :
    ((anyEventLabelInSubs sub eventLabels).1 = true →
        subscriptionStep cap (fun s => anyEventLabelInSubs s eventLabels) st sub =
          (st.1 ++ [sub.ChannelID], st.2))
    ∧ ((anyEventLabelInSubs sub eventLabels).1 = false →
        subscriptionStep cap (fun s => anyEventLabelInSubs s eventLabels) st sub = st) := by
  have hw := (anyEventLabelInSubs_wellFormed sub eventLabels hwell).2
  constructor
  · intro hok
    simp [subscriptionStep, hcap, hok]
  · intro hok
    simp [subscriptionStep, hcap, hok, hw, String.utf8ByteSize, String.utf8ByteSize.go]

/-- C7. With the label check of the specification, a subscription that has the
capability flag of the event kind and no label-filter token always contributes
its channel; one whose label-filter tokens are all well formed, and at least
one, is ok exactly when one of its filter names equals the name of a label of
the event: then it contributes its channel, and otherwise it contributes
neither a channel nor a warning. -/
theorem label_matching (m : GitlabRetreiver → mentionDetails → Option HandleWebhook)
    (issue : IssueCommentEvent) (mr : MergeCommentEvent) (subI subM : Subscription)
    (st : List String × List String)
    (hcapI : subI.IssueComments = true) (hcapM : subM.MergeRequestComments = true) :
    ((∀ token ∈ featureTokens subI.Features, labelArg token = none) →
        issueCommentStep (specHelpers m) issue st subI = (st.1 ++ [subI.ChannelID], st.2))
    ∧ (hasBareLabel subI.Features = false → labelNames subI.Features ≠ [] →
        (((specHelpers m).anyEventLabelInSubs subI issue.Issue.Labels).1 = true ↔
            ∃ n ∈ labelNames subI.Features, ∃ l ∈ issue.Issue.Labels, l.Name = n)
        ∧ ((∃ n ∈ labelNames subI.Features, ∃ l ∈ issue.Issue.Labels, l.Name = n) →
            issueCommentStep (specHelpers m) issue st subI = (st.1 ++ [subI.ChannelID], st.2))
        ∧ ((¬ ∃ n ∈ labelNames subI.Features, ∃ l ∈ issue.Issue.Labels, l.Name = n) →
            issueCommentStep (specHelpers m) issue st subI = st))
    ∧ ((∀ token ∈ featureTokens subM.Features, labelArg token = none) →
        mergeRequestCommentStep (specHelpers m) mr st subM = (st.1 ++ [subM.ChannelID], st.2))
    ∧ (hasBareLabel subM.Features = false → labelNames subM.Features ≠ [] →
        (((specHelpers m).anyEventLabelInSubs subM mr.MergeRequest.Labels).1 = true ↔
            ∃ n ∈ labelNames subM.Features, ∃ l ∈ mr.MergeRequest.Labels, l.Name = n)
        ∧ ((∃ n ∈ labelNames subM.Features, ∃ l ∈ mr.MergeRequest.Labels, l.Name = n) →
            mergeRequestCommentStep (specHelpers m) mr st subM =
              (st.1 ++ [subM.ChannelID], st.2))
        ∧ ((¬ ∃ n ∈ labelNames subM.Features, ∃ l ∈ mr.MergeRequest.Labels, l.Name = n) →
            mergeRequestCommentStep (specHelpers m) mr st subM = st)) := by
  have key : ∀ (cap : Subscription → Bool) (labels : List EventLabel) (sub : Subscription),
      cap sub = true →
      ((∀ token ∈ featureTokens sub.Features, labelArg token = none) →
        subscriptionStep cap (fun s => anyEventLabelInSubs s labels) st sub =
          (st.1 ++ [sub.ChannelID], st.2))
      ∧ (hasBareLabel sub.Features = false → labelNames sub.Features ≠ [] →
        ((anyEventLabelInSubs sub labels).1 = true ↔
            ∃ n ∈ labelNames sub.Features, ∃ l ∈ labels, l.Name = n)
        ∧ ((∃ n ∈ labelNames sub.Features, ∃ l ∈ labels, l.Name = n) →
            subscriptionStep cap (fun s => anyEventLabelInSubs s labels) st sub =
              (st.1 ++ [sub.ChannelID], st.2))
        ∧ ((¬ ∃ n ∈ labelNames sub.Features, ∃ l ∈ labels, l.Name = n) →
            subscriptionStep cap (fun s => anyEventLabelInSubs s labels) st sub = st)) := by
    intro cap labels sub hcap
    constructor
    · intro hnone
      obtain ⟨hwell, hnames⟩ := no_label_tokens sub.Features hnone
      exact (subscriptionStep_wellFormed cap labels sub st hcap hwell).1
        (((anyEventLabelInSubs_wellFormed sub labels hwell).1).2 (Or.inl hnames))
    · intro hwell hnames
      have hiff := (anyEventLabelInSubs_wellFormed sub labels hwell).1
      have hiff2 : (anyEventLabelInSubs sub labels).1 = true ↔
          ∃ n ∈ labelNames sub.Features, ∃ l ∈ labels, l.Name = n := by
        rw [hiff]
        constructor
        · rintro (h0 | h1)
          · exact absurd h0 hnames
          · exact h1
        · exact Or.inr
      refine ⟨hiff2, ?_, ?_⟩
      · intro hex
        exact (subscriptionStep_wellFormed cap labels sub st hcap hwell).1 (hiff2.2 hex)
      · intro hex
        apply (subscriptionStep_wellFormed cap labels sub st hcap hwell).2
        rw [← Bool.not_eq_true]
        exact fun hok => hex (hiff2.1 hok)
  have kI := key Subscription.IssueComments issue.Issue.Labels subI hcapI
  have kM := key Subscription.MergeRequestComments mr.MergeRequest.Labels subM hcapM
  exact ⟨kI.1, kI.2, kM.1, kM.2⟩

/-- Witness of C7: a subscription filtered on the label `bug` receives the
sample issue comment, which carries that label, and does not receive the sample
merge-request comment, which carries none, without a warning. -/
theorem label_matching_witness :
    (sampleSub "channel1" "issue_comments,label:\"bug\"").IssueComments = true
    ∧ (sampleSub "channel2" "merge_request_comments,label:\"bug\"").MergeRequestComments = true
    ∧ hasBareLabel (sampleSub "channel1" "issue_comments,label:\"bug\"").Features = false
    ∧ labelNames (sampleSub "channel1" "issue_comments,label:\"bug\"").Features = ["bug"]
    ∧ issueCommentStep (specHelpers noMention) sampleIssueComment ([], [])
        (sampleSub "channel1" "issue_comments,label:\"bug\"") =
        (([] : List String) ++ [(sampleSub "channel1" "issue_comments,label:\"bug\"").ChannelID],
          [])
    ∧ mergeRequestCommentStep (specHelpers noMention) sampleMergeComment ([], [])
        (sampleSub "channel2" "merge_request_comments,label:\"bug\"") = ([], []) :=
  have hw := label_matching noMention sampleIssueComment sampleMergeComment
    (sampleSub "channel1" "issue_comments,label:\"bug\"")
    (sampleSub "channel2" "merge_request_comments,label:\"bug\"") ([], [])
    (by decide) (by decide)
  ⟨by decide, by decide, by decide, by decide,
    (hw.2.1 (by decide) (by decide)).2.1 ⟨"bug", by decide, ⟨{ Name := "bug" }, by decide, rfl⟩⟩,
    (hw.2.2.2 (by decide) (by decide)).2.2 (by decide)⟩

/-! ## The Deduplicator of the specification -/

theorem sameNotification_iff (a b : HandleWebhook) :
    sameNotification a b = true ↔ notificationKey a = notificationKey b := by
  simp [sameNotification, notificationKey]

theorem mergeHandler_foldl_cons (l : List HandleWebhook) :
    ∀ (x : HandleWebhook) (acc : List HandleWebhook),
      l.foldl (fun acc r => mergeHandler r acc) (x :: acc) =
        { Message := x.Message, From := x.From,
          ToUsers := x.ToUsers ++ (l.filter (fun r => sameNotification x r)).flatMap (·.ToUsers),
          ToChannels :=
            x.ToChannels ++ (l.filter (fun r => sameNotification x r)).flatMap (·.ToChannels) } ::
          (l.filter (fun r => !sameNotification x r)).foldl (fun acc r => mergeHandler r acc) acc := by
  induction l with
  | nil => intro x acc; simp
  | cons r rest ih =>
    intro x acc
    rw [List.foldl_cons]
    by_cases hs : sameNotification x r = true
    · rw [mergeHandler, if_pos hs, ih]
      have hk : ∀ y, sameNotification
          { Message := x.Message, From := x.From, ToUsers := x.ToUsers ++ r.ToUsers,
            ToChannels := x.ToChannels ++ r.ToChannels } y = sameNotification x y := by
        intro y; rfl
      simp [hk, hs, List.filter_cons]
    · rw [mergeHandler, if_neg hs, ih]
      simp [hs, List.filter_cons]

theorem cleanWebhookHandlers_cons (r : HandleWebhook) (rest : List HandleWebhook) :
    cleanWebhookHandlers (r :: rest) =
      { Message := r.Message, From := r.From,
        ToUsers := r.ToUsers ++ (rest.filter (fun x => sameNotification r x)).flatMap (·.ToUsers),
        ToChannels :=
          r.ToChannels ++ (rest.filter (fun x => sameNotification r x)).flatMap (·.ToChannels) } ::
        cleanWebhookHandlers (rest.filter (fun x => !sameNotification r x)) := by
  unfold cleanWebhookHandlers
  rw [List.foldl_cons]
  exact mergeHandler_foldl_cons rest r []

theorem firstSeen_filter (p : String × String → Bool) (l : List (String × String)) :
    firstSeen (l.filter p) = (firstSeen l).filter p := by
  induction l with
  | nil => simp [firstSeen]
  | cons k l ih =>
    by_cases hp : p k = true
    · simp only [List.filter_cons, hp, if_true, firstSeen, ih, List.filter_filter]
      congr 2
      funext x
      exact Bool.and_comm _ _
    · simp only [List.filter_cons, hp, firstSeen, ih, List.filter_filter]
      simp only [Bool.false_eq_true, if_false]
      rw [ih]
      apply List.filter_congr
      intro x _
      by_cases hx : p x = true
      · have : x ≠ k := fun hxk => hp (hxk ▸ hx)
        simp [hx, this]
      · simp [hx]

theorem mem_firstSeen (k : String × String) (l : List (String × String)) :
    k ∈ firstSeen l ↔ k ∈ l := by
  induction l with
  | nil => simp [firstSeen]
  | cons a l ih =>
    simp only [firstSeen, List.mem_cons, List.mem_filter, ih]
    by_cases hka : k = a
    · simp [hka]
    · simp [hka]

theorem firstSeen_nodup (l : List (String × String)) : (firstSeen l).Nodup := by
  induction l with
  | nil => simp [firstSeen]
  | cons a l ih =>
    simp only [firstSeen, List.nodup_cons, List.mem_filter]
    refine ⟨by simp, ih.filter _⟩

theorem cleanWebhookHandlers_keys (n : Nat) :
    ∀ l : List HandleWebhook, l.length ≤ n →
      (cleanWebhookHandlers l).map notificationKey = firstSeen (l.map notificationKey) := by
  induction n with
  | zero =>
    intro l hl
    have : l = [] := List.length_eq_zero.1 (Nat.le_zero.1 hl)
    subst this
    rfl
  | succ n ih =>
    intro l hl
    cases l with
    | nil => rfl
    | cons r rest =>
      have hlen : (rest.filter (fun x => !sameNotification r x)).length ≤ n :=
        le_trans (List.length_filter_le _ _) (by simpa using hl)
      rw [cleanWebhookHandlers_cons, List.map_cons, List.map_cons, firstSeen, ih _ hlen,
        ← firstSeen_filter]
      have hmap : (rest.filter (fun x => !sameNotification r x)).map notificationKey =
          (rest.map notificationKey).filter (fun x => decide (x ≠ notificationKey r)) := by
        rw [List.filter_map]
        congr 1
        apply List.filter_congr
        intro x _
        simp [sameNotification, notificationKey, Function.comp]
        have h1 : decide (r.From = x.From) = decide (x.From = r.From) :=
          decide_eq_decide.2 eq_comm
        have h2 : decide (r.Message = x.Message) = decide (x.Message = r.Message) :=
          decide_eq_decide.2 eq_comm
        rw [h1, h2]
      rw [hmap]
      rfl


theorem cleanWebhookHandlers_key_mem (l : List HandleWebhook) (x : HandleWebhook)
    (hx : x ∈ cleanWebhookHandlers l) : ∃ y ∈ l, notificationKey y = notificationKey x := by
  have hk : notificationKey x ∈ (cleanWebhookHandlers l).map notificationKey :=
    List.mem_map_of_mem _ hx
  rw [cleanWebhookHandlers_keys l.length l le_rfl, mem_firstSeen, List.mem_map] at hk
  exact hk

theorem cleanWebhookHandlers_recipients (n : Nat) :
    ∀ l : List HandleWebhook, l.length ≤ n → ∀ x ∈ cleanWebhookHandlers l,
      x.ToUsers = (l.filter (fun y => sameNotification x y)).flatMap (·.ToUsers)
      ∧ x.ToChannels = (l.filter (fun y => sameNotification x y)).flatMap (·.ToChannels) := by
  induction n with
  | zero =>
    intro l hl x hx
    have : l = [] := List.length_eq_zero.1 (Nat.le_zero.1 hl)
    subst this
    simp [cleanWebhookHandlers] at hx
  | succ n ih =>
    intro l hl x hx
    cases l with
    | nil => simp [cleanWebhookHandlers] at hx
    | cons r rest =>
      have hlen : (rest.filter (fun y => !sameNotification r y)).length ≤ n :=
        le_trans (List.length_filter_le _ _) (by simpa using hl)
      rw [cleanWebhookHandlers_cons, List.mem_cons] at hx
      rcases hx with hx | hx
      · subst hx
        have hrr : sameNotification r r = true := by simp [sameNotification]
        have hk : ∀ y, sameNotification
            { Message := r.Message, From := r.From,
              ToUsers := r.ToUsers ++
                (rest.filter (fun x => sameNotification r x)).flatMap (·.ToUsers),
              ToChannels := r.ToChannels ++
                (rest.filter (fun x => sameNotification r x)).flatMap (·.ToChannels) } y =
            sameNotification r y := by
          intro y; rfl
        simp only [hk, List.filter_cons, hrr, if_true, List.flatMap_cons, and_self]
      · obtain ⟨hu, hc⟩ := ih _ hlen x hx
        obtain ⟨y, hy, hyk⟩ := cleanWebhookHandlers_key_mem _ x hx
        have hyr : sameNotification r y = false := by
          have := (List.mem_filter.1 hy).2
          simpa using this
        have hxr : sameNotification x r = false := by
          rw [← Bool.not_eq_true, sameNotification_iff, ← hyk]
          intro hh
          have : sameNotification r y = true := (sameNotification_iff r y).2 hh.symm
          rw [hyr] at this
          exact Bool.false_ne_true this
        have hfil : (rest.filter (fun y => !sameNotification r y)).filter
            (fun y => sameNotification x y) = rest.filter (fun y => sameNotification x y) := by
          rw [List.filter_filter]
          apply List.filter_congr
          intro z _
          by_cases hz : sameNotification x z = true
          · have hrz : sameNotification r z = false := by
              rw [← Bool.not_eq_true, sameNotification_iff]
              intro hh
              have hxz := (sameNotification_iff x z).1 hz
              have : sameNotification x r = true := (sameNotification_iff x r).2 (hxz.trans hh.symm)
              rw [hxr] at this
              exact Bool.false_ne_true this
            simp [hz, hrz]
          · simp [hz]
        rw [hfil] at hu hc
        simp only [List.filter_cons, hxr, Bool.false_eq_true, if_false]
        exact ⟨hu, hc⟩

theorem cleanWebhookHandlers_deduplicated (l : List HandleWebhook) :
    Deduplicated l (cleanWebhookHandlers l) := by
  have hkeys := cleanWebhookHandlers_keys l.length l le_rfl
  have hrec := cleanWebhookHandlers_recipients l.length l le_rfl
  refine ⟨?_, hkeys, hrec, ?_⟩
  · have hnd : ((cleanWebhookHandlers l).map notificationKey).Nodup := by
      rw [hkeys]; exact firstSeen_nodup _
    rw [List.Nodup, List.pairwise_map] at hnd
    refine hnd.imp ?_
    intro a b hab hh
    exact hab (by simp [notificationKey, hh.1, hh.2])
  · intro r hr hone
    have hk : notificationKey r ∈ (cleanWebhookHandlers l).map notificationKey := by
      rw [hkeys, mem_firstSeen]
      exact List.mem_map_of_mem _ hr
    obtain ⟨x, hx, hxk⟩ := List.mem_map.1 hk
    obtain ⟨hu, hc⟩ := hrec x hx
    have hsame : (fun y => sameNotification x y) = (fun y => sameNotification r y) := by
      funext y
      simp only [sameNotification, notificationKey, Prod.mk.injEq] at hxk ⊢
      rw [hxk.1, hxk.2]
    rw [hsame, hone] at hu hc
    have hxr : x = r := by
      cases x; cases r
      simp only [notificationKey, Prod.mk.injEq] at hxk
      simp at hu hc
      simp [hxk.1, hxk.2, hu, hc]
    exact hxr ▸ hx

/-! ## C8: the ordering contract -/

/-- The Deduplicator of the specification never puts a DM-shaped record behind
a channel-shaped one when it is given a record with users, at most one further
record, and at most one record without users at the end. -/
theorem cleanWebhookHandlers_order (d : HandleWebhook) (ms cs : List HandleWebhook)
    (hd : d.ToUsers ≠ []) (hms : ms.length ≤ 1) (hcs : cs.length ≤ 1)
    (hc : ∀ c ∈ cs, c.ToUsers = []) :
    (cleanWebhookHandlers (d :: (ms ++ cs))).Pairwise
      (fun a b => ¬ (channelShaped a = true ∧ dmShaped b = true)) := by
  match ms, hms, cs, hcs, hc with
  | [], _, [], _, _ => simp [cleanWebhookHandlers, mergeHandler]
  | [], _, [c], _, hc =>
    have hcu : c.ToUsers = [] := hc c (by simp)
    simp only [cleanWebhookHandlers, List.nil_append, List.foldl_cons, List.foldl_nil,
      mergeHandler]
    split <;> simp [channelShaped, dmShaped, hd, hcu]
  | [m], _, [], _, _ =>
    simp only [cleanWebhookHandlers, List.append_nil, List.foldl_cons, List.foldl_nil,
      mergeHandler]
    split <;> simp [channelShaped, dmShaped, hd]
  | [m], _, [c], _, hc =>
    have hcu : c.ToUsers = [] := hc c (by simp)
    simp only [cleanWebhookHandlers, List.cons_append, List.nil_append, List.foldl_cons,
      List.foldl_nil, mergeHandler]
    split
    · simp only [mergeHandler]
      split <;> simp [channelShaped, dmShaped, hd, hcu]
    · simp only [mergeHandler]
      split
      · simp [channelShaped, dmShaped, hd, hcu]
      · split <;> simp [channelShaped, dmShaped, hd, hcu]

theorem handleDMIssueComment_records (h : Helpers) (w : GitlabRetreiver)
    (event : IssueCommentEvent) :
    (handleDMIssueComment h w event).1 =
      [{ Message := issueDMMessage w event, From := event.User.Username,
         ToUsers := issueToUsers w event, ToChannels := [] }] ++
      (h.handleMention w
        { senderUsername := event.User.Username
          pathWithNamespace := event.Project.PathWithNamespace
          IID := iidString event.Issue.IID
          URL := event.ObjectAttributes.URL
          body := event.ObjectAttributes.Description }).toList := by
  unfold handleDMIssueComment
  simp only
  split <;> rename_i hm <;> rw [hm] <;> rfl

theorem handleDMMergeRequestComment_records (h : Helpers) (w : GitlabRetreiver)
    (event : MergeCommentEvent) :
    (handleDMMergeRequestComment h w event).1 =
      [{ Message := mergeRequestDMMessage w event, From := event.User.Username,
         ToUsers := [w.GetUsernameByID event.MergeRequest.AssigneeID,
                     w.GetUsernameByID event.MergeRequest.AuthorID],
         ToChannels := [] }] ++
      (h.handleMention w
        { senderUsername := event.User.Username
          pathWithNamespace := event.Project.PathWithNamespace
          IID := iidString event.MergeRequest.IID
          URL := event.ObjectAttributes.URL
          body := event.ObjectAttributes.Description }).toList := by
  unfold handleDMMergeRequestComment
  simp only
  split <;> rename_i hm <;> rw [hm] <;> rfl

theorem handleChannelIssueComment_records (h : Helpers) (w : GitlabRetreiver) (ctx : Context)
    (event : IssueCommentEvent) :
    (handleChannelIssueComment h w ctx event).1 =
      (if (issueCommentLoop h w ctx event).1 = [] then []
       else [{ From := event.User.Username
               Message := channelMessage w event.User.Username event.Project event.Issue.IID
                 event.Issue.Title event.ObjectAttributes.URL
                 event.ObjectAttributes.Description
               ToUsers := []
               ToChannels := (issueCommentLoop h w ctx event).1 }]) := by
  unfold handleChannelIssueComment
  by_cases hc : (issueCommentLoop h w ctx event).1 = []
  · simp [hc]
  · simp [hc, List.length_pos]

theorem handleChannelMergeRequestComment_records (h : Helpers) (w : GitlabRetreiver)
    (ctx : Context) (event : MergeCommentEvent) :
    (handleChannelMergeRequestComment h w ctx event).1 =
      (if (mergeRequestCommentLoop h w ctx event).1 = [] then []
       else [{ From := event.User.Username
               Message := channelMessage w event.User.Username event.Project
                 event.MergeRequest.IID event.MergeRequest.Title event.ObjectAttributes.URL
                 event.ObjectAttributes.Description
               ToUsers := []
               ToChannels := (mergeRequestCommentLoop h w ctx event).1 }]) := by
  unfold handleChannelMergeRequestComment
  by_cases hc : (mergeRequestCommentLoop h w ctx event).1 = []
  · simp [hc]
  · simp [hc, List.length_pos]

/-- C8. `HandleIssueComment` and `HandleMergeRequestComment` return
`cleanWebhookHandlers` applied to the DM record, then the mention record when
the mention detector returned one, then the channel record when a channel
matched. With the Deduplicator of the specification, no DM-shaped record of the
returned list stands behind a channel-shaped one. -/
theorem ordering_contract (h : Helpers) (w : GitlabRetreiver) (ctx : Context)
    (issue : IssueCommentEvent) (mr : MergeCommentEvent)
    (hclean : h.cleanWebhookHandlers = cleanWebhookHandlers) :
    HandleIssueComment h w ctx issue =
        (some (h.cleanWebhookHandlers
          ([{ Message := issueDMMessage w issue, From := issue.User.Username,
              ToUsers := issueToUsers w issue, ToChannels := [] }] ++
            (h.handleMention w
              { senderUsername := issue.User.Username
                pathWithNamespace := issue.Project.PathWithNamespace
                IID := iidString issue.Issue.IID
                URL := issue.ObjectAttributes.URL
                body := issue.ObjectAttributes.Description }).toList ++
            (if (issueCommentLoop h w ctx issue).1 = [] then []
             else [{ From := issue.User.Username
                     Message := channelMessage w issue.User.Username issue.Project
                       issue.Issue.IID issue.Issue.Title issue.ObjectAttributes.URL
                       issue.ObjectAttributes.Description
                     ToUsers := []
                     ToChannels := (issueCommentLoop h w ctx issue).1 }]))),
         (issueCommentLoop h w ctx issue).2, none)
    ∧ (∀ out, (HandleIssueComment h w ctx issue).1 = some out →
        out.Pairwise (fun a b => ¬ (channelShaped a = true ∧ dmShaped b = true)))
    ∧ HandleMergeRequestComment h w ctx mr =
        (some (h.cleanWebhookHandlers
          ([{ Message := mergeRequestDMMessage w mr, From := mr.User.Username,
              ToUsers := [w.GetUsernameByID mr.MergeRequest.AssigneeID,
                          w.GetUsernameByID mr.MergeRequest.AuthorID],
              ToChannels := [] }] ++
            (h.handleMention w
              { senderUsername := mr.User.Username
                pathWithNamespace := mr.Project.PathWithNamespace
                IID := iidString mr.MergeRequest.IID
                URL := mr.ObjectAttributes.URL
                body := mr.ObjectAttributes.Description }).toList ++
            (if (mergeRequestCommentLoop h w ctx mr).1 = [] then []
             else [{ From := mr.User.Username
                     Message := channelMessage w mr.User.Username mr.Project
                       mr.MergeRequest.IID mr.MergeRequest.Title mr.ObjectAttributes.URL
                       mr.ObjectAttributes.Description
                     ToUsers := []
                     ToChannels := (mergeRequestCommentLoop h w ctx mr).1 }]))),
         (mergeRequestCommentLoop h w ctx mr).2, none)
    ∧ (∀ out, (HandleMergeRequestComment h w ctx mr).1 = some out →
        out.Pairwise (fun a b => ¬ (channelShaped a = true ∧ dmShaped b = true))) := by
  have hI := HandleIssueComment_eq h w ctx issue
  rw [handleDMIssueComment_records, handleChannelIssueComment_records] at hI
  have hM := HandleMergeRequestComment_eq h w ctx mr
  rw [handleDMMergeRequestComment_records, handleChannelMergeRequestComment_records] at hM
  refine ⟨hI, ?_, hM, ?_⟩
  · intro out hout
    rw [hI, hclean] at hout
    simp only [Option.some.injEq] at hout
    rw [← hout, List.singleton_append, List.cons_append]
    apply cleanWebhookHandlers_order
    · rw [issueToUsers_eq]; simp
    · cases h.handleMention w _ <;> simp
    · split <;> simp
    · intro c hc
      split at hc
      · simp at hc
      · simp only [List.mem_singleton] at hc
        rw [hc]
  · intro out hout
    rw [hM, hclean] at hout
    simp only [Option.some.injEq] at hout
    rw [← hout, List.singleton_append, List.cons_append]
    apply cleanWebhookHandlers_order
    · simp
    · cases h.handleMention w _ <;> simp
    · split <;> simp
    · intro c hc
      split at hc
      · simp at hc
      · simp only [List.mem_singleton] at hc
        rw [hc]

/-- Witness of C8: the sample issue comment with a mention and one subscribed
channel gives the DM record, the mention record and the channel record, in
that order; the first sample of `note_test.go` gives the DM record at index 0
and the channel record at index 1. -/
theorem ordering_contract_witness :
    (specHelpers sampleMention).cleanWebhookHandlers = cleanWebhookHandlers
    ∧ (∀ out, (HandleIssueComment (specHelpers sampleMention)
          (sampleRetreiver [sampleSub "channel1" "issue_comments"]) sampleContext
          sampleIssueMentionComment).1 = some out →
        out.Pairwise (fun a b => ¬ (channelShaped a = true ∧ dmShaped b = true)))
    ∧ (HandleIssueComment (specHelpers sampleMention)
          (sampleRetreiver [sampleSub "channel1" "issue_comments"]) sampleContext
          sampleIssueMentionComment).1.map (List.map (fun r => (dmShaped r, channelShaped r)))
        = some [(true, false), (true, false), (false, true)]
    ∧ (HandleIssueComment (specHelpers noMention)
          (sampleRetreiver [sampleSub "channel1" "issue_comments"]) sampleContext
          sampleIssueComment).1.map (List.map (fun r => (r.ToUsers, r.ToChannels)))
        = some [(["root", "manland", "root"], []), ([], ["channel1"])] :=
  ⟨rfl,
    (ordering_contract (specHelpers sampleMention)
      (sampleRetreiver [sampleSub "channel1" "issue_comments"]) sampleContext
      sampleIssueMentionComment sampleMergeComment rfl).2.1,
    by decide, by decide⟩

/-! ## C9: deduplication of the dispatch result -/

theorem mem_distinctUsers (u : String) (l : List String) : u ∈ distinctUsers l ↔ u ∈ l := by
  induction l with
  | nil => simp [distinctUsers]
  | cons a l ih =>
    simp only [distinctUsers, List.mem_cons, List.mem_filter, ih]
    by_cases hua : u = a
    · simp [hua]
    · simp [hua]

theorem distinctUsers_nodup (l : List String) : (distinctUsers l).Nodup := by
  induction l with
  | nil => simp [distinctUsers]
  | cons a l ih =>
    simp only [distinctUsers, List.nodup_cons, List.mem_filter]
    exact ⟨by simp, ih.filter _⟩

theorem distinctUsers_of_nodup (l : List String) (hl : l.Nodup) : distinctUsers l = l := by
  induction l with
  | nil => rfl
  | cons a l ih =>
    rw [List.nodup_cons] at hl
    rw [distinctUsers, ih hl.2, List.filter_eq_self.2]
    intro x hx
    have : x ≠ a := fun hxa => hl.1 (hxa ▸ hx)
    simpa using this

theorem cleanWebhookHandlersDistinct_deduplicated (l : List HandleWebhook) :
    DeduplicatedDistinct l (cleanWebhookHandlersDistinct l) := by
  obtain ⟨hpair, hkeys, hrec, hone⟩ := cleanWebhookHandlers_deduplicated l
  have hmem : ∀ r ∈ cleanWebhookHandlersDistinct l, ∃ x ∈ cleanWebhookHandlers l,
      r = { Message := x.Message, From := x.From, ToUsers := distinctUsers x.ToUsers,
            ToChannels := x.ToChannels } := by
    intro r hr
    obtain ⟨x, hx, hxr⟩ := List.mem_map.1 hr
    exact ⟨x, hx, hxr.symm⟩
  have hone2 : ∀ r ∈ l, l.filter (fun x => sameNotification r x) = [r] →
      { Message := r.Message, From := r.From, ToUsers := distinctUsers r.ToUsers,
        ToChannels := r.ToChannels } ∈ cleanWebhookHandlersDistinct l := by
    intro r hr hfil
    exact List.mem_map.2 ⟨r, hone r hr hfil, rfl⟩
  refine ⟨?_, ?_, ?_, ?_, hone2, ?_⟩
  · unfold cleanWebhookHandlersDistinct
    rw [List.pairwise_map]
    exact hpair
  · unfold cleanWebhookHandlersDistinct
    rw [List.map_map, ← hkeys]
    rfl
  · intro r hr
    obtain ⟨x, hx, rfl⟩ := hmem r hr
    obtain ⟨hu, hc⟩ := hrec x hx
    have hs : ∀ y, sameNotification
        { Message := x.Message, From := x.From, ToUsers := distinctUsers x.ToUsers,
          ToChannels := x.ToChannels } y = sameNotification x y := fun _ => rfl
    simp only [hs]
    exact ⟨congrArg distinctUsers hu, hc⟩
  · intro r hr
    obtain ⟨x, _, rfl⟩ := hmem r hr
    exact distinctUsers_nodup _
  · intro r hr hfil hnd
    have := hone2 r hr hfil
    rw [distinctUsers_of_nodup _ hnd] at this
    exact this

/-- C9, as amended. With the Deduplicator of the specification (§4.6, with the
removal of duplicate usernames that §4.2 places in it), the record list
returned by `HandleIssueComment` and by `HandleMergeRequestComment` is the
deduplication of the list of the DM step followed by the list of the channel
step: no two returned records share `From` and `Message`; the records sharing
them are merged at the place of the earliest, their `ToUsers` concatenated in
the order they came with each username kept at its first place only, their
`ToChannels` concatenated; a record sharing them with no other keeps its
`From`, `Message` and `ToChannels` and each of its usernames once, and is
returned as it is when it names no user twice. -/
theorem deduplication_distinct_users (h : Helpers) (w : GitlabRetreiver) (ctx : Context)
    (issue : IssueCommentEvent) (mr : MergeCommentEvent)
    (hclean : h.cleanWebhookHandlers = cleanWebhookHandlersDistinct) :
    (∃ out, (HandleIssueComment h w ctx issue).1 = some out
      ∧ DeduplicatedDistinct
          ((handleDMIssueComment h w issue).1 ++ (handleChannelIssueComment h w ctx issue).1) out)
    ∧ (∃ out, (HandleMergeRequestComment h w ctx mr).1 = some out
      ∧ DeduplicatedDistinct
          ((handleDMMergeRequestComment h w mr).1 ++
            (handleChannelMergeRequestComment h w ctx mr).1) out) := by
  constructor
  · refine ⟨_, ?_, cleanWebhookHandlersDistinct_deduplicated _⟩
    rw [HandleIssueComment_eq, hclean]
  · refine ⟨_, ?_, cleanWebhookHandlersDistinct_deduplicated _⟩
    rw [HandleMergeRequestComment_eq, hclean]

set_option maxRecDepth 8192 in
/-- C9, as stated, fails. For the sample merge-request comment, whose assignee
and author are both `root`, the DM record is built with `ToUsers`
`["root", "root"]` and a text that differs from the channel record's; it is
returned with `ToUsers` `["root"]`, as `note_test.go` expects, so it is not
left untouched and its `ToUsers` is not the concatenation: the returned list is
not the merge-only deduplication of the records built. -/
theorem repeated_username_not_kept :
    ((handleDMMergeRequestComment (specHelpersDistinct noMention)
          (sampleRetreiver [sampleSub "channel1" "merge_request_comments"])
          sampleMergeComment).1 ++
        (handleChannelMergeRequestComment (specHelpersDistinct noMention)
          (sampleRetreiver [sampleSub "channel1" "merge_request_comments"]) sampleContext
          sampleMergeComment).1).map (fun r => (r.ToUsers, r.ToChannels)) =
      [(["root", "root"], []), ([], ["channel1"])]
    ∧ ((handleDMMergeRequestComment (specHelpersDistinct noMention)
          (sampleRetreiver [sampleSub "channel1" "merge_request_comments"])
          sampleMergeComment).1 ++
        (handleChannelMergeRequestComment (specHelpersDistinct noMention)
          (sampleRetreiver [sampleSub "channel1" "merge_request_comments"]) sampleContext
          sampleMergeComment).1).Pairwise (fun a b => a.Message ≠ b.Message)
    ∧ (HandleMergeRequestComment (specHelpersDistinct noMention)
          (sampleRetreiver [sampleSub "channel1" "merge_request_comments"]) sampleContext
          sampleMergeComment).1.map (List.map (fun r => (r.ToUsers, r.ToChannels))) =
      some [(["root"], []), ([], ["channel1"])]
    ∧ (∀ out, (HandleMergeRequestComment (specHelpersDistinct noMention)
          (sampleRetreiver [sampleSub "channel1" "merge_request_comments"]) sampleContext
          sampleMergeComment).1 = some out →
        ¬ Deduplicated
          ((handleDMMergeRequestComment (specHelpersDistinct noMention)
              (sampleRetreiver [sampleSub "channel1" "merge_request_comments"])
              sampleMergeComment).1 ++
            (handleChannelMergeRequestComment (specHelpersDistinct noMention)
              (sampleRetreiver [sampleSub "channel1" "merge_request_comments"]) sampleContext
              sampleMergeComment).1) out) := by
  refine ⟨by decide, by decide, by decide, ?_⟩
  intro out hout hd
  have hmap := List.map_congr_left (fun r hr => (hd.2.2.1 r hr).1)
  have hout2 : cleanWebhookHandlersDistinct
      ((handleDMMergeRequestComment (specHelpersDistinct noMention)
          (sampleRetreiver [sampleSub "channel1" "merge_request_comments"])
          sampleMergeComment).1 ++
        (handleChannelMergeRequestComment (specHelpersDistinct noMention)
          (sampleRetreiver [sampleSub "channel1" "merge_request_comments"]) sampleContext
          sampleMergeComment).1) = out := Option.some.inj hout
  subst hout2
  revert hmap
  decide

/-- Witness of C9 as amended: a mention record with the text of the DM record
is merged into the DM record, whose recipients `root`, `manland`, `root`,
`manland` become `root`, `manland`; the channel record is left as it is. -/
theorem deduplication_distinct_users_witness :
    (specHelpersDistinct sameTextMention).cleanWebhookHandlers = cleanWebhookHandlersDistinct
    ∧ ((∃ out, (HandleIssueComment (specHelpersDistinct sameTextMention)
            (sampleRetreiver [sampleSub "channel1" "issue_comments"]) sampleContext
            sampleIssueComment).1 = some out
          ∧ DeduplicatedDistinct
              ((handleDMIssueComment (specHelpersDistinct sameTextMention)
                  (sampleRetreiver [sampleSub "channel1" "issue_comments"])
                  sampleIssueComment).1 ++
                (handleChannelIssueComment (specHelpersDistinct sameTextMention)
                  (sampleRetreiver [sampleSub "channel1" "issue_comments"]) sampleContext
                  sampleIssueComment).1) out)
      ∧ (∃ out, (HandleMergeRequestComment (specHelpersDistinct sameTextMention)
            (sampleRetreiver [sampleSub "channel1" "issue_comments"]) sampleContext
            sampleMergeComment).1 = some out
          ∧ DeduplicatedDistinct
              ((handleDMMergeRequestComment (specHelpersDistinct sameTextMention)
                  (sampleRetreiver [sampleSub "channel1" "issue_comments"])
                  sampleMergeComment).1 ++
                (handleChannelMergeRequestComment (specHelpersDistinct sameTextMention)
                  (sampleRetreiver [sampleSub "channel1" "issue_comments"]) sampleContext
                  sampleMergeComment).1) out))
    ∧ ((handleDMIssueComment (specHelpersDistinct sameTextMention)
          (sampleRetreiver [sampleSub "channel1" "issue_comments"]) sampleIssueComment).1 ++
        (handleChannelIssueComment (specHelpersDistinct sameTextMention)
          (sampleRetreiver [sampleSub "channel1" "issue_comments"]) sampleContext
          sampleIssueComment).1).map (fun r => (r.ToUsers, r.ToChannels))
        = [(["root", "manland", "root"], []), (["manland"], []), ([], ["channel1"])]
    ∧ (HandleIssueComment (specHelpersDistinct sameTextMention)
          (sampleRetreiver [sampleSub "channel1" "issue_comments"]) sampleContext
          sampleIssueComment).1.map (List.map (fun r => (r.ToUsers, r.ToChannels)))
        = some [(["root", "manland"], []), ([], ["channel1"])] :=
  ⟨rfl,
    deduplication_distinct_users (specHelpersDistinct sameTextMention)
      (sampleRetreiver [sampleSub "channel1" "issue_comments"]) sampleContext
      sampleIssueComment sampleMergeComment rfl,
    by decide, by decide⟩

/-! ## C10: the DM template -/

/-- C10. The message of the DM record is
`[sender](GetUserURL(sender)) commented on your K [PathWithNamespace#IID](commentURL)`
with the IID in decimal, where `K` is `issue` for `handleDMIssueComment` and
`merge request` for `handleDMMergeRequestComment`; the record's `From` is the
sender. -/
theorem dm_template (h : Helpers) (w : GitlabRetreiver) (issue : IssueCommentEvent)
    (mr : MergeCommentEvent) :
    (handleDMIssueComment h w issue).1.head?.map (fun r => (r.Message, r.From)) =
        some ("[" ++ issue.User.Username ++ "](" ++ w.GetUserURL issue.User.Username ++
            ") commented on your " ++ "issue" ++ " [" ++ issue.Project.PathWithNamespace ++
            "#" ++ decimal issue.Issue.IID ++ "](" ++ issue.ObjectAttributes.URL ++ ")",
          issue.User.Username)
    ∧ (handleDMMergeRequestComment h w mr).1.head?.map (fun r => (r.Message, r.From)) =
        some ("[" ++ mr.User.Username ++ "](" ++ w.GetUserURL mr.User.Username ++
            ") commented on your " ++ "merge request" ++ " [" ++ mr.Project.PathWithNamespace ++
            "#" ++ decimal mr.MergeRequest.IID ++ "](" ++ mr.ObjectAttributes.URL ++ ")",
          mr.User.Username) := by
  have hI : issueDMMessage w issue =
      "[" ++ issue.User.Username ++ "](" ++ w.GetUserURL issue.User.Username ++
        ") commented on your " ++ "issue" ++ " [" ++ issue.Project.PathWithNamespace ++
        "#" ++ decimal issue.Issue.IID ++ "](" ++ issue.ObjectAttributes.URL ++ ")" := by
    apply String.ext
    simp [issueDMMessage, Sprintf, sprintfChars, formatVerb]
  have hM : mergeRequestDMMessage w mr =
      "[" ++ mr.User.Username ++ "](" ++ w.GetUserURL mr.User.Username ++
        ") commented on your " ++ "merge request" ++ " [" ++ mr.Project.PathWithNamespace ++
        "#" ++ decimal mr.MergeRequest.IID ++ "](" ++ mr.ObjectAttributes.URL ++ ")" := by
    apply String.ext
    simp [mergeRequestDMMessage, Sprintf, sprintfChars, formatVerb]
  constructor
  · rw [handleDMIssueComment_records, ← hI]
    rfl
  · rw [handleDMMergeRequestComment_records, ← hM]
    rfl

/-! ## The expectations of `note_test.go` and the Deduplicator of the specification -/

/-- X1. The merge-request expectation of `TestNoteWebhook` against §4.6. The DM
record of `handleDMMergeRequestComment` always has two `ToUsers`. So when the
first returned record carries the DM message and the sender and fewer than two
`ToUsers` (the test expects `["root"]`), the returned list is not the
deduplication, in the sense of the specification, of the records built by
`note.go`, and `cleanWebhookHandlers` is not the merge-only Deduplicator. -/
theorem short_recipients_not_deduplication (h : Helpers) (w : GitlabRetreiver) (ctx : Context)
    (mr : MergeCommentEvent) (r : HandleWebhook) (rest : List HandleWebhook)
    (hout : (HandleMergeRequestComment h w ctx mr).1 = some (r :: rest))
    (hmsg : r.Message = mergeRequestDMMessage w mr) (hfrom : r.From = mr.User.Username)
    (husers : r.ToUsers.length < 2) :
    ¬ Deduplicated
        ((handleDMMergeRequestComment h w mr).1 ++
          (handleChannelMergeRequestComment h w ctx mr).1) (r :: rest)
    ∧ h.cleanWebhookHandlers ≠ cleanWebhookHandlers := by
  have hnot : ¬ Deduplicated
      ((handleDMMergeRequestComment h w mr).1 ++
        (handleChannelMergeRequestComment h w ctx mr).1) (r :: rest) := by
    intro hded
    have hu := (hded.2.2.1 r (List.mem_cons_self _ _)).1
    have hsame : sameNotification r
        { Message := mergeRequestDMMessage w mr, From := mr.User.Username,
          ToUsers := [w.GetUsernameByID mr.MergeRequest.AssigneeID,
                      w.GetUsernameByID mr.MergeRequest.AuthorID],
          ToChannels := [] } = true := by
      simp [sameNotification, hmsg, hfrom]
    rw [handleDMMergeRequestComment_records, List.singleton_append, List.cons_append,
      List.filter_cons, if_pos hsame, List.flatMap_cons] at hu
    have hlen := congrArg List.length hu
    simp only [List.length_append, List.length_cons, List.length_nil] at hlen
    omega
  refine ⟨hnot, ?_⟩
  intro hclean
  apply hnot
  have hd := cleanWebhookHandlers_deduplicated
    ((handleDMMergeRequestComment h w mr).1 ++ (handleChannelMergeRequestComment h w ctx mr).1)
  rw [HandleMergeRequestComment_eq, hclean] at hout
  simp only [Option.some.injEq] at hout
  rw [hout] at hd
  exact hd

/-- Witness: with a deduplicator that keeps each username once, the sample
merge-request comment (assignee and author both `root`) returns the DM record
with `ToUsers = ["root"]`, as `note_test.go` expects. -/
theorem short_recipients_not_deduplication_witness :
    (HandleMergeRequestComment userCleaningHelpers
        (sampleRetreiver [sampleSub "channel1" "merge_request_comments"]) sampleContext
        sampleMergeComment).1 =
      some ({ Message := mergeRequestDMMessage
                (sampleRetreiver [sampleSub "channel1" "merge_request_comments"])
                sampleMergeComment
              From := "manland", ToUsers := ["root"], ToChannels := [] } ::
            [{ Message := channelMessage
                 (sampleRetreiver [sampleSub "channel1" "merge_request_comments"]) "manland"
                 sampleMergeComment.Project 6 "Update README.md"
                 "http://localhost:3000/manland/webhook/merge_requests/6#note_999" "coucou"
               From := "manland", ToUsers := [], ToChannels := ["channel1"] }])
    ∧ (¬ Deduplicated
          ((handleDMMergeRequestComment userCleaningHelpers
              (sampleRetreiver [sampleSub "channel1" "merge_request_comments"])
              sampleMergeComment).1 ++
            (handleChannelMergeRequestComment userCleaningHelpers
              (sampleRetreiver [sampleSub "channel1" "merge_request_comments"]) sampleContext
              sampleMergeComment).1)
          ({ Message := mergeRequestDMMessage
               (sampleRetreiver [sampleSub "channel1" "merge_request_comments"])
               sampleMergeComment
             From := "manland", ToUsers := ["root"], ToChannels := [] } ::
            [{ Message := channelMessage
                 (sampleRetreiver [sampleSub "channel1" "merge_request_comments"]) "manland"
                 sampleMergeComment.Project 6 "Update README.md"
                 "http://localhost:3000/manland/webhook/merge_requests/6#note_999" "coucou"
               From := "manland", ToUsers := [], ToChannels := ["channel1"] }])
      ∧ userCleaningHelpers.cleanWebhookHandlers ≠ cleanWebhookHandlers) :=
  ⟨rfl,
    short_recipients_not_deduplication userCleaningHelpers
      (sampleRetreiver [sampleSub "channel1" "merge_request_comments"]) sampleContext
      sampleMergeComment _ _ rfl rfl rfl (by decide)⟩

/-! ## C11: the channel template -/

/-- The channel message, written out. -/
theorem channelMessage_eq (w : GitlabRetreiver) (sender : String) (repo : EventProject)
    (iid : Int) (title url body : String) :
    channelMessage w sender repo iid title url body =
      "[" ++ repo.PathWithNamespace ++ "](" ++ repo.WebURL ++ ") New comment by [" ++ sender ++
        "](" ++ w.GetUserURL sender ++ ") on [#" ++ decimal iid ++ " " ++ title ++ "](" ++ url ++
        "):" ++ "\n" ++ "\n" ++ body := by
  apply String.ext
  simp [channelMessage, Sprintf, sprintfChars, formatVerb]

/-- C11. The message of the channel record, when one is produced, is
`[PathWithNamespace](WebURL) New comment by [sender](GetUserURL(sender)) on
[#IID title](commentURL):`, two newlines and the comment body, with the IID in
decimal; for an issue comment the IID and title are the issue's, for a
merge-request comment the merge request's, and the text is otherwise the
same. -/
theorem channel_template (h : Helpers) (w : GitlabRetreiver) (ctx : Context)
    (issue : IssueCommentEvent) (mr : MergeCommentEvent) :
    (∀ r ∈ (handleChannelIssueComment h w ctx issue).1, r.Message =
        "[" ++ issue.Project.PathWithNamespace ++ "](" ++ issue.Project.WebURL ++
          ") New comment by [" ++ issue.User.Username ++ "](" ++
          w.GetUserURL issue.User.Username ++ ") on [#" ++ decimal issue.Issue.IID ++ " " ++
          issue.Issue.Title ++ "](" ++ issue.ObjectAttributes.URL ++ "):" ++ "\n" ++ "\n" ++
          issue.ObjectAttributes.Description)
    ∧ (∀ r ∈ (handleChannelMergeRequestComment h w ctx mr).1, r.Message =
        "[" ++ mr.Project.PathWithNamespace ++ "](" ++ mr.Project.WebURL ++
          ") New comment by [" ++ mr.User.Username ++ "](" ++
          w.GetUserURL mr.User.Username ++ ") on [#" ++ decimal mr.MergeRequest.IID ++ " " ++
          mr.MergeRequest.Title ++ "](" ++ mr.ObjectAttributes.URL ++ "):" ++ "\n" ++ "\n" ++
          mr.ObjectAttributes.Description)
    ∧ ((issueCommentLoop h w ctx issue).1 ≠ [] →
        (handleChannelIssueComment h w ctx issue).1.map (·.Message) =
          ["[" ++ issue.Project.PathWithNamespace ++ "](" ++ issue.Project.WebURL ++
            ") New comment by [" ++ issue.User.Username ++ "](" ++
            w.GetUserURL issue.User.Username ++ ") on [#" ++ decimal issue.Issue.IID ++ " " ++
            issue.Issue.Title ++ "](" ++ issue.ObjectAttributes.URL ++ "):" ++ "\n" ++ "\n" ++
            issue.ObjectAttributes.Description])
    ∧ ((mergeRequestCommentLoop h w ctx mr).1 ≠ [] →
        (handleChannelMergeRequestComment h w ctx mr).1.map (·.Message) =
          ["[" ++ mr.Project.PathWithNamespace ++ "](" ++ mr.Project.WebURL ++
            ") New comment by [" ++ mr.User.Username ++ "](" ++
            w.GetUserURL mr.User.Username ++ ") on [#" ++ decimal mr.MergeRequest.IID ++ " " ++
            mr.MergeRequest.Title ++ "](" ++ mr.ObjectAttributes.URL ++ "):" ++ "\n" ++ "\n" ++
            mr.ObjectAttributes.Description]) := by
  refine ⟨?_, ?_, ?_, ?_⟩
  · intro r hr
    rw [handleChannelIssueComment_records] at hr
    split at hr
    · simp at hr
    · rw [List.mem_singleton] at hr
      rw [hr, ← channelMessage_eq]
  · intro r hr
    rw [handleChannelMergeRequestComment_records] at hr
    split at hr
    · simp at hr
    · rw [List.mem_singleton] at hr
      rw [hr, ← channelMessage_eq]
  · intro hne
    rw [handleChannelIssueComment_records, if_neg hne, ← channelMessage_eq]
    rfl
  · intro hne
    rw [handleChannelMergeRequestComment_records, if_neg hne, ← channelMessage_eq]
    rfl

set_option maxRecDepth 8192 in
/-- The first sample of `note_test.go`: the channel record of the sample issue
comment carries the expected text. -/
theorem channel_template_witness :
    (issueCommentLoop (specHelpers noMention)
        (sampleRetreiver [sampleSub "channel1" "issue_comments"]) sampleContext
        sampleIssueComment).1 ≠ []
    ∧ (handleChannelIssueComment (specHelpers noMention)
        (sampleRetreiver [sampleSub "channel1" "issue_comments"]) sampleContext
        sampleIssueComment).1.map (·.Message) =
        ["[" ++ sampleIssueComment.Project.PathWithNamespace ++ "](" ++
          sampleIssueComment.Project.WebURL ++ ") New comment by [" ++
          sampleIssueComment.User.Username ++ "](" ++
          (sampleRetreiver [sampleSub "channel1" "issue_comments"]).GetUserURL
            sampleIssueComment.User.Username ++ ") on [#" ++
          decimal sampleIssueComment.Issue.IID ++ " " ++ sampleIssueComment.Issue.Title ++
          "](" ++ sampleIssueComment.ObjectAttributes.URL ++ "):" ++ "\n" ++ "\n" ++
          sampleIssueComment.ObjectAttributes.Description]
    ∧ (handleChannelIssueComment (specHelpers noMention)
        (sampleRetreiver [sampleSub "channel1" "issue_comments"]) sampleContext
        sampleIssueComment).1.map (·.Message) =
        ["[manland/webhook](http://localhost:3000/manland/webhook) New comment by [manland](http://my.gitlab.com/manland) on [#1 test new issue](http://localhost:3000/manland/webhook/issues/1#note_997):\n\ncoucou3"] :=
  ⟨by decide,
    (channel_template (specHelpers noMention)
      (sampleRetreiver [sampleSub "channel1" "issue_comments"]) sampleContext
      sampleIssueComment sampleMergeComment).2.2.1 (by decide),
    rfl⟩

/-! ## C12: the recipients of a merge-request comment -/

/-- C12. The `ToUsers` list of the DM record built by
`handleDMMergeRequestComment` is the two-element list of the username of the
assignee and the username of the author, in that order, whatever the assignee
id is; for the id 0 of a merge request without assignee the first entry is
what the user directory returns for 0. -/
theorem merge_request_recipient_list (h : Helpers) (w : GitlabRetreiver)
    (mr : MergeCommentEvent) :
    (handleDMMergeRequestComment h w mr).1.head?.map (·.ToUsers) =
        some [w.GetUsernameByID mr.MergeRequest.AssigneeID,
              w.GetUsernameByID mr.MergeRequest.AuthorID]
    ∧ (handleDMMergeRequestComment h w
          { User := mr.User, Project := mr.Project, ObjectAttributes := mr.ObjectAttributes,
            MergeRequest := { IID := mr.MergeRequest.IID, Title := mr.MergeRequest.Title,
                              AssigneeID := 0, AuthorID := mr.MergeRequest.AuthorID,
                              Labels := mr.MergeRequest.Labels } }).1.head?.map (·.ToUsers) =
        some [w.GetUsernameByID 0, w.GetUsernameByID mr.MergeRequest.AuthorID] := by
  constructor
  · rw [handleDMMergeRequestComment_records]; rfl
  · rw [handleDMMergeRequestComment_records]; rfl

/-! ## C13: filter problems never fail the dispatch -/

/-- C13. Whatever the store returns and whatever the label check answers,
`HandleIssueComment` and `HandleMergeRequestComment` return a nil error and a
record list, which is `cleanWebhookHandlers` applied to a list whose first
record is the DM record. -/
theorem dispatch_never_fails (h : Helpers) (w : GitlabRetreiver) (ctx : Context)
    (issue : IssueCommentEvent) (mr : MergeCommentEvent) :
    (HandleIssueComment h w ctx issue).2.2 = none
    ∧ (HandleIssueComment h w ctx issue).1 =
        some (h.cleanWebhookHandlers
          ((handleDMIssueComment h w issue).1 ++ (handleChannelIssueComment h w ctx issue).1))
    ∧ ((handleDMIssueComment h w issue).1 ++
          (handleChannelIssueComment h w ctx issue).1).head? =
        some { Message := issueDMMessage w issue, From := issue.User.Username,
               ToUsers := issueToUsers w issue, ToChannels := [] }
    ∧ (HandleMergeRequestComment h w ctx mr).2.2 = none
    ∧ (HandleMergeRequestComment h w ctx mr).1 =
        some (h.cleanWebhookHandlers
          ((handleDMMergeRequestComment h w mr).1 ++
            (handleChannelMergeRequestComment h w ctx mr).1))
    ∧ ((handleDMMergeRequestComment h w mr).1 ++
          (handleChannelMergeRequestComment h w ctx mr).1).head? =
        some { Message := mergeRequestDMMessage w mr, From := mr.User.Username,
               ToUsers := [w.GetUsernameByID mr.MergeRequest.AssigneeID,
                           w.GetUsernameByID mr.MergeRequest.AuthorID],
               ToChannels := [] } := by
  refine ⟨rfl, rfl, ?_, rfl, rfl, ?_⟩
  · rw [handleDMIssueComment_records]; rfl
  · rw [handleDMMergeRequestComment_records]; rfl

/-! ## C14: all-or-nothing failure -/

/-- C14. `HandleIssueComment` and `HandleMergeRequestComment` are the body
`dispatchOutcome` applied to what their two steps return. When the DM step
returns an error, the body returns that same error with a nil record list (and
no warning), whatever the channel step would return; when the channel step,
which holds the store lookup, returns an error, the body returns that same
error with a nil record list (and that step's warnings). For no outcome of the
steps does the body return a non-nil error together with a non-nil record
list, and so neither handler ever does. -/
theorem all_or_nothing (h : Helpers) (w : GitlabRetreiver) (ctx : Context)
    (issue : IssueCommentEvent) (mr : MergeCommentEvent)
    (clean : List HandleWebhook → List HandleWebhook) (err : Error)
    (handlers handlers2 : List HandleWebhook) (warnings : List String)
    (dm : List HandleWebhook × Option Error)
    (ch : List HandleWebhook × List String × Option Error) :
    dispatchOutcome clean (handlers, some err) ch = (none, [], some err)
    ∧ dispatchOutcome clean (handlers, none) (handlers2, warnings, some err) =
        (none, warnings, some err)
    ∧ HandleIssueComment h w ctx issue =
        dispatchOutcome h.cleanWebhookHandlers (handleDMIssueComment h w issue)
          (handleChannelIssueComment h w ctx issue)
    ∧ HandleMergeRequestComment h w ctx mr =
        dispatchOutcome h.cleanWebhookHandlers (handleDMMergeRequestComment h w mr)
          (handleChannelMergeRequestComment h w ctx mr)
    ∧ ¬ ((dispatchOutcome clean dm ch).2.2 ≠ none ∧ (dispatchOutcome clean dm ch).1 ≠ none)
    ∧ ((dispatchOutcome clean dm ch).2.2 = none →
        (dispatchOutcome clean dm ch).1 = some (clean (dm.1 ++ ch.1)))
    ∧ ¬ ((HandleIssueComment h w ctx issue).2.2 ≠ none
          ∧ (HandleIssueComment h w ctx issue).1 ≠ none)
    ∧ ¬ ((HandleMergeRequestComment h w ctx mr).2.2 ≠ none
          ∧ (HandleMergeRequestComment h w ctx mr).1 ≠ none) := by
  have hall : ∀ (dm : List HandleWebhook × Option Error)
      (ch : List HandleWebhook × List String × Option Error),
      ¬ ((dispatchOutcome clean dm ch).2.2 ≠ none ∧ (dispatchOutcome clean dm ch).1 ≠ none) := by
    intro dm ch
    obtain ⟨hs, e⟩ := dm
    obtain ⟨hs2, ws, e2⟩ := ch
    cases e with
    | some e => simp [dispatchOutcome]
    | none =>
      cases e2 with
      | none => simp [dispatchOutcome]
      | some e2 => simp [dispatchOutcome]
  refine ⟨rfl, rfl, rfl, rfl, hall dm ch, ?_, ?_, ?_⟩
  · obtain ⟨hs, e⟩ := dm
    obtain ⟨hs2, ws, e2⟩ := ch
    cases e with
    | some e => simp [dispatchOutcome]
    | none =>
      cases e2 with
      | none => simp [dispatchOutcome]
      | some e2 => simp [dispatchOutcome]
  · simp [HandleIssueComment_eq]
  · simp [HandleMergeRequestComment_eq]

/-! ## C15: subscriptions are filtered independently -/

/-- The loop over a concatenation. -/
theorem subscriptionStep_foldl_append (cap : Subscription → Bool)
    (check : Subscription → Bool × String) (s1 s2 : List Subscription) :
    (s1 ++ s2).foldl (subscriptionStep cap check) ([], []) =
      ((s1.foldl (subscriptionStep cap check) ([], [])).1 ++
          (s2.foldl (subscriptionStep cap check) ([], [])).1,
       (s1.foldl (subscriptionStep cap check) ([], [])).2 ++
          (s2.foldl (subscriptionStep cap check) ([], [])).2) := by
  simp only [subscriptionStep_foldl, List.filter_append, List.map_append, List.nil_append]

/-- The channels of a list of subscriptions stay, in their order, when a
subscription is inserted. -/
theorem subscriptionStep_foldl_insert (cap : Subscription → Bool)
    (check : Subscription → Bool × String) (pre post : List Subscription) (sub : Subscription) :
    List.Sublist ((pre ++ post).foldl (subscriptionStep cap check) ([], [])).1
      ((pre ++ sub :: post).foldl (subscriptionStep cap check) ([], [])).1 := by
  simp only [subscriptionStep_foldl, List.filter_append, List.map_append, List.nil_append]
  apply List.Sublist.append (List.Sublist.refl _)
  apply List.Sublist.map
  apply List.Sublist.filter
  exact List.sublist_cons_self _ _

/-- C15. The channel list and the warning list computed for the store answer
`s1 ++ s2` are those for `s1` followed by those for `s2`, for issue comments
and for merge-request comments. So the channels computed for `pre ++ post`
stay, in their order, when any subscription is inserted between `pre` and
`post`, and are unchanged when the inserted subscription contributes no
channel. -/
theorem independent_filtering (h : Helpers) (w : GitlabRetreiver) (ctx : Context)
    (issue : IssueCommentEvent) (mr : MergeCommentEvent) (s1 s2 pre post : List Subscription)
    (sub : Subscription) :
    issueCommentLoop h (withSubscriptions w (s1 ++ s2)) ctx issue =
        ((issueCommentLoop h (withSubscriptions w s1) ctx issue).1 ++
            (issueCommentLoop h (withSubscriptions w s2) ctx issue).1,
         (issueCommentLoop h (withSubscriptions w s1) ctx issue).2 ++
            (issueCommentLoop h (withSubscriptions w s2) ctx issue).2)
    ∧ mergeRequestCommentLoop h (withSubscriptions w (s1 ++ s2)) ctx mr =
        ((mergeRequestCommentLoop h (withSubscriptions w s1) ctx mr).1 ++
            (mergeRequestCommentLoop h (withSubscriptions w s2) ctx mr).1,
         (mergeRequestCommentLoop h (withSubscriptions w s1) ctx mr).2 ++
            (mergeRequestCommentLoop h (withSubscriptions w s2) ctx mr).2)
    ∧ (HandleIssueComment h (withSubscriptions w (s1 ++ s2)) ctx issue).2.1 =
        (HandleIssueComment h (withSubscriptions w s1) ctx issue).2.1 ++
          (HandleIssueComment h (withSubscriptions w s2) ctx issue).2.1
    ∧ (HandleMergeRequestComment h (withSubscriptions w (s1 ++ s2)) ctx mr).2.1 =
        (HandleMergeRequestComment h (withSubscriptions w s1) ctx mr).2.1 ++
          (HandleMergeRequestComment h (withSubscriptions w s2) ctx mr).2.1
    ∧ List.Sublist (issueCommentLoop h (withSubscriptions w (pre ++ post)) ctx issue).1
        (issueCommentLoop h (withSubscriptions w (pre ++ sub :: post)) ctx issue).1
    ∧ List.Sublist (mergeRequestCommentLoop h (withSubscriptions w (pre ++ post)) ctx mr).1
        (mergeRequestCommentLoop h (withSubscriptions w (pre ++ sub :: post)) ctx mr).1
    ∧ ((issueCommentLoop h (withSubscriptions w [sub]) ctx issue).1 = [] →
        (issueCommentLoop h (withSubscriptions w (pre ++ sub :: post)) ctx issue).1 =
          (issueCommentLoop h (withSubscriptions w (pre ++ post)) ctx issue).1)
    ∧ ((mergeRequestCommentLoop h (withSubscriptions w [sub]) ctx mr).1 = [] →
        (mergeRequestCommentLoop h (withSubscriptions w (pre ++ sub :: post)) ctx mr).1 =
          (mergeRequestCommentLoop h (withSubscriptions w (pre ++ post)) ctx mr).1) := by
  have hI := subscriptionStep_foldl_append h.IssueComments
    (fun s => h.anyEventLabelInSubs s issue.Issue.Labels)
  have hM := subscriptionStep_foldl_append h.MergeRequestComments
    (fun s => h.anyEventLabelInSubs s mr.MergeRequest.Labels)
  refine ⟨?_, ?_, ?_, ?_, ?_, ?_, ?_, ?_⟩
  · simp only [issueCommentLoop, subscribedChannels_withSubscriptions, issueCommentStep_eq]
    exact hI s1 s2
  · simp only [mergeRequestCommentLoop, subscribedChannels_withSubscriptions,
      mergeRequestCommentStep_eq]
    exact hM s1 s2
  · simp only [HandleIssueComment_eq, issueCommentLoop, subscribedChannels_withSubscriptions,
      issueCommentStep_eq]
    rw [hI s1 s2]
  · simp only [HandleMergeRequestComment_eq, mergeRequestCommentLoop,
      subscribedChannels_withSubscriptions, mergeRequestCommentStep_eq]
    rw [hM s1 s2]
  · simp only [issueCommentLoop, subscribedChannels_withSubscriptions, issueCommentStep_eq]
    exact subscriptionStep_foldl_insert _ _ pre post sub
  · simp only [mergeRequestCommentLoop, subscribedChannels_withSubscriptions,
      mergeRequestCommentStep_eq]
    exact subscriptionStep_foldl_insert _ _ pre post sub
  · simp only [issueCommentLoop, subscribedChannels_withSubscriptions, issueCommentStep_eq]
    intro hnone
    have hcons : pre ++ sub :: post = pre ++ ([sub] ++ post) := rfl
    rw [hcons, hI pre ([sub] ++ post), hI [sub] post, hI pre post, hnone]
    simp
  · simp only [mergeRequestCommentLoop, subscribedChannels_withSubscriptions,
      mergeRequestCommentStep_eq]
    intro hnone
    have hcons : pre ++ sub :: post = pre ++ ([sub] ++ post) := rfl
    rw [hcons, hM pre ([sub] ++ post), hM [sub] post, hM pre post, hnone]
    simp

/-- A malformed subscription between two matching ones: the channels of the
others stay, and its warning is added. -/
theorem independent_filtering_witness :
    (issueCommentLoop (specHelpers noMention)
        (withSubscriptions (sampleRetreiver [])
          [sampleSub "channel2" "issue_comments,label:"]) sampleContext
        sampleIssueComment).1 = []
    ∧ (issueCommentLoop (specHelpers noMention)
        (withSubscriptions (sampleRetreiver [])
          ([sampleSub "channel1" "issue_comments"] ++
            sampleSub "channel2" "issue_comments,label:" ::
            [sampleSub "channel3" "issue_comments"])) sampleContext sampleIssueComment).1 =
        (issueCommentLoop (specHelpers noMention)
          (withSubscriptions (sampleRetreiver [])
            ([sampleSub "channel1" "issue_comments"] ++ [sampleSub "channel3" "issue_comments"]))
          sampleContext sampleIssueComment).1
    ∧ issueCommentLoop (specHelpers noMention)
        (withSubscriptions (sampleRetreiver [])
          ([sampleSub "channel1" "issue_comments"] ++
            sampleSub "channel2" "issue_comments,label:" ::
            [sampleSub "channel3" "issue_comments"])) sampleContext sampleIssueComment =
        (["channel1", "channel3"], [labelWarning]) :=
  ⟨by decide,
    (independent_filtering (specHelpers noMention) (sampleRetreiver []) sampleContext
      sampleIssueComment sampleMergeComment [] [] [sampleSub "channel1" "issue_comments"]
      [sampleSub "channel3" "issue_comments"]
      (sampleSub "channel2" "issue_comments,label:")).2.2.2.2.2.2.1 (by decide),
    by decide⟩

/-! ## C16: the shapes before deduplication -/

/-- C16. Before deduplication, the DM record built by `handleDMIssueComment`
and by `handleDMMergeRequestComment` has a non-empty `ToUsers` and an empty
`ToChannels`; every record of the channel steps has a non-empty `ToChannels`
and an empty `ToUsers`; so every record of the four steps, the record returned
by the mention detector apart, has one of its two lists empty, and so has
every record when the mention detector returns DM-shaped records only. -/
theorem shape_invariant (h : Helpers) (w : GitlabRetreiver) (ctx : Context)
    (issue : IssueCommentEvent) (mr : MergeCommentEvent) :
    (handleDMIssueComment h w issue).1.head?.map
        (fun r => (decide (r.ToUsers ≠ []), r.ToChannels)) = some (true, [])
    ∧ (handleDMMergeRequestComment h w mr).1.head?.map
        (fun r => (decide (r.ToUsers ≠ []), r.ToChannels)) = some (true, [])
    ∧ (∀ r ∈ (handleChannelIssueComment h w ctx issue).1, r.ToChannels ≠ [] ∧ r.ToUsers = [])
    ∧ (∀ r ∈ (handleChannelMergeRequestComment h w ctx mr).1,
        r.ToChannels ≠ [] ∧ r.ToUsers = [])
    ∧ (∀ r ∈ (handleDMIssueComment h w issue).1 ++ (handleChannelIssueComment h w ctx issue).1,
        dmShaped r = true ∨ channelShaped r = true ∨
          h.handleMention w
            { senderUsername := issue.User.Username
              pathWithNamespace := issue.Project.PathWithNamespace
              IID := iidString issue.Issue.IID
              URL := issue.ObjectAttributes.URL
              body := issue.ObjectAttributes.Description } = some r)
    ∧ (∀ r ∈ (handleDMMergeRequestComment h w mr).1 ++
          (handleChannelMergeRequestComment h w ctx mr).1,
        dmShaped r = true ∨ channelShaped r = true ∨
          h.handleMention w
            { senderUsername := mr.User.Username
              pathWithNamespace := mr.Project.PathWithNamespace
              IID := iidString mr.MergeRequest.IID
              URL := mr.ObjectAttributes.URL
              body := mr.ObjectAttributes.Description } = some r)
    ∧ ((∀ d m, h.handleMention w d = some m → dmShaped m = true) →
        (∀ r ∈ (handleDMIssueComment h w issue).1 ++
            (handleChannelIssueComment h w ctx issue).1,
          ¬ (r.ToUsers ≠ [] ∧ r.ToChannels ≠ []))
        ∧ (∀ r ∈ (handleDMMergeRequestComment h w mr).1 ++
            (handleChannelMergeRequestComment h w ctx mr).1,
          ¬ (r.ToUsers ≠ [] ∧ r.ToChannels ≠ []))) := by
  have hshape : ∀ r : HandleWebhook, dmShaped r = true ∨ channelShaped r = true →
      ¬ (r.ToUsers ≠ [] ∧ r.ToChannels ≠ []) := by
    intro r hr hboth
    rcases hr with hr | hr
    · simp [dmShaped, hboth.2] at hr
    · simp [channelShaped, hboth.1] at hr
  have hcI : ∀ r ∈ (handleChannelIssueComment h w ctx issue).1,
      r.ToChannels ≠ [] ∧ r.ToUsers = [] := by
    intro r hr
    rw [handleChannelIssueComment_records] at hr
    split at hr
    · simp at hr
    · rename_i hne
      rw [List.mem_singleton] at hr
      rw [hr]
      exact ⟨hne, rfl⟩
  have hcM : ∀ r ∈ (handleChannelMergeRequestComment h w ctx mr).1,
      r.ToChannels ≠ [] ∧ r.ToUsers = [] := by
    intro r hr
    rw [handleChannelMergeRequestComment_records] at hr
    split at hr
    · simp at hr
    · rename_i hne
      rw [List.mem_singleton] at hr
      rw [hr]
      exact ⟨hne, rfl⟩
  have huI : issueToUsers w issue ≠ [] := by rw [issueToUsers_eq]; simp
  have hallI : ∀ r ∈ (handleDMIssueComment h w issue).1 ++
      (handleChannelIssueComment h w ctx issue).1,
      dmShaped r = true ∨ channelShaped r = true ∨
        h.handleMention w
          { senderUsername := issue.User.Username
            pathWithNamespace := issue.Project.PathWithNamespace
            IID := iidString issue.Issue.IID
            URL := issue.ObjectAttributes.URL
            body := issue.ObjectAttributes.Description } = some r := by
    intro r hr
    rw [List.mem_append, handleDMIssueComment_records, List.mem_append, List.mem_singleton,
      Option.mem_toList] at hr
    rcases hr with (hr | hr) | hr
    · left
      rw [hr]
      simp [dmShaped, huI]
    · right; right
      exact hr
    · right; left
      obtain ⟨h1, h2⟩ := hcI r hr
      simp [channelShaped, h1, h2]
  have hallM : ∀ r ∈ (handleDMMergeRequestComment h w mr).1 ++
      (handleChannelMergeRequestComment h w ctx mr).1,
      dmShaped r = true ∨ channelShaped r = true ∨
        h.handleMention w
          { senderUsername := mr.User.Username
            pathWithNamespace := mr.Project.PathWithNamespace
            IID := iidString mr.MergeRequest.IID
            URL := mr.ObjectAttributes.URL
            body := mr.ObjectAttributes.Description } = some r := by
    intro r hr
    rw [List.mem_append, handleDMMergeRequestComment_records, List.mem_append,
      List.mem_singleton, Option.mem_toList] at hr
    rcases hr with (hr | hr) | hr
    · left
      rw [hr]
      simp [dmShaped]
    · right; right
      exact hr
    · right; left
      obtain ⟨h1, h2⟩ := hcM r hr
      simp [channelShaped, h1, h2]
  refine ⟨?_, ?_, hcI, hcM, hallI, hallM, ?_⟩
  · rw [handleDMIssueComment_records]
    simp [huI]
  · rw [handleDMMergeRequestComment_records]
    simp
  · intro hmention
    constructor
    · intro r hr
      rcases hallI r hr with hs | hs | hs
      · exact hshape r (Or.inl hs)
      · exact hshape r (Or.inr hs)
      · exact hshape r (Or.inl (hmention _ r hs))
    · intro r hr
      rcases hallM r hr with hs | hs | hs
      · exact hshape r (Or.inl hs)
      · exact hshape r (Or.inr hs)
      · exact hshape r (Or.inl (hmention _ r hs))

/-- The sample mention detector returns DM-shaped records, so no record built
for the sample issue comment with a mention has both lists non-empty. -/
theorem shape_invariant_witness :
    (∀ d m, (specHelpers sampleMention).handleMention
        (sampleRetreiver [sampleSub "channel1" "issue_comments"]) d = some m →
        dmShaped m = true)
    ∧ (∀ r ∈ (handleDMIssueComment (specHelpers sampleMention)
          (sampleRetreiver [sampleSub "channel1" "issue_comments"])
          sampleIssueMentionComment).1 ++
        (handleChannelIssueComment (specHelpers sampleMention)
          (sampleRetreiver [sampleSub "channel1" "issue_comments"]) sampleContext
          sampleIssueMentionComment).1,
        ¬ (r.ToUsers ≠ [] ∧ r.ToChannels ≠ []))
    ∧ ((handleDMIssueComment (specHelpers sampleMention)
          (sampleRetreiver [sampleSub "channel1" "issue_comments"])
          sampleIssueMentionComment).1 ++
        (handleChannelIssueComment (specHelpers sampleMention)
          (sampleRetreiver [sampleSub "channel1" "issue_comments"]) sampleContext
          sampleIssueMentionComment).1).map (fun r => (r.ToUsers, r.ToChannels)) =
        [(["root", "manland", "root"], []), (["root"], []), ([], ["channel1"])] :=
  have hmention : ∀ d m, (specHelpers sampleMention).handleMention
      (sampleRetreiver [sampleSub "channel1" "issue_comments"]) d = some m →
      dmShaped m = true := by
    intro d m hm
    simp only [specHelpers, sampleMention] at hm
    split at hm
    · simp only [Option.some.injEq] at hm
      rw [← hm]
      rfl
    · simp at hm
  ⟨hmention,
    ((shape_invariant (specHelpers sampleMention)
      (sampleRetreiver [sampleSub "channel1" "issue_comments"]) sampleContext
      sampleIssueMentionComment sampleMergeComment).2.2.2.2.2.2 hmention).1,
    by decide⟩

/-! ## C17: the mention record -/

/-- The rendering `%d` of an IID is its decimal form. -/
theorem iidString_eq (iid : Int) : iidString iid = decimal iid := by
  apply String.ext
  simp [iidString, Sprintf, sprintfChars, formatVerb]

/-- C17. The DM step returns the DM record alone when `handleMention` returns
nothing, and the DM record followed by the mention record when it returns one.
The mention detector is called with the sender's username, the project's
`PathWithNamespace`, the IID in decimal, the comment URL and the comment body.
The DM record does not depend on the mention detector: it is the same whether
or not a mention is found and whoever is mentioned. -/
theorem mention_without_suppression (h : Helpers) (w : GitlabRetreiver)
    (issue : IssueCommentEvent) (mr : MergeCommentEvent) :
    (handleDMIssueComment h w issue).1 =
        (match h.handleMention w
            { senderUsername := issue.User.Username
              pathWithNamespace := issue.Project.PathWithNamespace
              IID := decimal issue.Issue.IID
              URL := issue.ObjectAttributes.URL
              body := issue.ObjectAttributes.Description } with
         | none =>
           [{ Message := issueDMMessage w issue, From := issue.User.Username,
              ToUsers := issueToUsers w issue, ToChannels := [] }]
         | some mention =>
           [{ Message := issueDMMessage w issue, From := issue.User.Username,
              ToUsers := issueToUsers w issue, ToChannels := [] }, mention])
    ∧ (handleDMMergeRequestComment h w mr).1 =
        (match h.handleMention w
            { senderUsername := mr.User.Username
              pathWithNamespace := mr.Project.PathWithNamespace
              IID := decimal mr.MergeRequest.IID
              URL := mr.ObjectAttributes.URL
              body := mr.ObjectAttributes.Description } with
         | none =>
           [{ Message := mergeRequestDMMessage w mr, From := mr.User.Username,
              ToUsers := [w.GetUsernameByID mr.MergeRequest.AssigneeID,
                          w.GetUsernameByID mr.MergeRequest.AuthorID],
              ToChannels := [] }]
         | some mention =>
           [{ Message := mergeRequestDMMessage w mr, From := mr.User.Username,
              ToUsers := [w.GetUsernameByID mr.MergeRequest.AssigneeID,
                          w.GetUsernameByID mr.MergeRequest.AuthorID],
              ToChannels := [] }, mention])
    ∧ (∀ h2 : Helpers, (handleDMIssueComment h w issue).1.head? =
        (handleDMIssueComment h2 w issue).1.head?)
    ∧ (∀ h2 : Helpers, (handleDMMergeRequestComment h w mr).1.head? =
        (handleDMMergeRequestComment h2 w mr).1.head?) := by
  refine ⟨?_, ?_, ?_, ?_⟩
  · rw [handleDMIssueComment_records, iidString_eq]
    cases h.handleMention w _ <;> rfl
  · rw [handleDMMergeRequestComment_records, iidString_eq]
    cases h.handleMention w _ <;> rfl
  · intro h2
    rw [handleDMIssueComment_records, handleDMIssueComment_records]
    rfl
  · intro h2
    rw [handleDMMergeRequestComment_records, handleDMMergeRequestComment_records]
    rfl

/-! ## C18: the two channel steps agree -/

/-- C18. An issue comment and a merge-request comment that agree on the sender,
the project, the IID, the title, the labels, the comment URL and the comment
body, with a store answer on which `IssueComments()` and
`MergeRequestComments()` agree for each subscription, get the same result from
`handleChannelIssueComment` and `handleChannelMergeRequestComment`: the same
records, field by field, the same warnings and the nil error. -/
theorem channel_steps_agree (h : Helpers) (w : GitlabRetreiver) (ctx : Context)
    (issue : IssueCommentEvent) (mr : MergeCommentEvent)
    (huser : issue.User.Username = mr.User.Username)
    (hproject : issue.Project = mr.Project)
    (hiid : issue.Issue.IID = mr.MergeRequest.IID)
    (htitle : issue.Issue.Title = mr.MergeRequest.Title)
    (hlabels : issue.Issue.Labels = mr.MergeRequest.Labels)
    (hurl : issue.ObjectAttributes.URL = mr.ObjectAttributes.URL)
    (hbody : issue.ObjectAttributes.Description = mr.ObjectAttributes.Description)
    (hflags : ∀ sub ∈ subscribedChannels h w ctx issue.Project,
      h.IssueComments sub = h.MergeRequestComments sub) :
    handleChannelIssueComment h w ctx issue = handleChannelMergeRequestComment h w ctx mr := by
  have hloop : issueCommentLoop h w ctx issue = mergeRequestCommentLoop h w ctx mr := by
    rw [issueCommentLoop_eq, mergeRequestCommentLoop_eq, ← hproject, ← hlabels]
    congr 2
    · apply List.filter_congr
      intro sub hsub
      rw [hflags sub hsub]
    · apply List.filter_congr
      intro sub hsub
      rw [hflags sub hsub]
  unfold handleChannelIssueComment handleChannelMergeRequestComment
  simp only [hloop, huser, hproject, hiid, htitle, hurl, hbody]

/-- Witness of C18: the sample issue comment and its merge-request twin, with
three subscriptions on which the two flags agree. -/
theorem channel_steps_agree_witness :
    sampleIssueComment.User.Username = sampleMergeTwin.User.Username
    ∧ sampleIssueComment.Project = sampleMergeTwin.Project
    ∧ sampleIssueComment.Issue.IID = sampleMergeTwin.MergeRequest.IID
    ∧ sampleIssueComment.Issue.Title = sampleMergeTwin.MergeRequest.Title
    ∧ sampleIssueComment.Issue.Labels = sampleMergeTwin.MergeRequest.Labels
    ∧ sampleIssueComment.ObjectAttributes.URL = sampleMergeTwin.ObjectAttributes.URL
    ∧ sampleIssueComment.ObjectAttributes.Description =
        sampleMergeTwin.ObjectAttributes.Description
    ∧ (∀ sub ∈ subscribedChannels (specHelpers noMention) (sampleRetreiver sampleTwinSubs)
          sampleContext sampleIssueComment.Project,
        (specHelpers noMention).IssueComments sub =
          (specHelpers noMention).MergeRequestComments sub)
    ∧ handleChannelIssueComment (specHelpers noMention) (sampleRetreiver sampleTwinSubs)
        sampleContext sampleIssueComment =
      handleChannelMergeRequestComment (specHelpers noMention) (sampleRetreiver sampleTwinSubs)
        sampleContext sampleMergeTwin
    ∧ (handleChannelIssueComment (specHelpers noMention) (sampleRetreiver sampleTwinSubs)
        sampleContext sampleIssueComment).1.map (·.ToChannels) = [["channel1"]]
    ∧ (handleChannelIssueComment (specHelpers noMention) (sampleRetreiver sampleTwinSubs)
        sampleContext sampleIssueComment).2.1 = [labelWarning] :=
  ⟨rfl, rfl, rfl, rfl, rfl, rfl, rfl, by decide,
    channel_steps_agree (specHelpers noMention) (sampleRetreiver sampleTwinSubs) sampleContext
      sampleIssueComment sampleMergeTwin rfl rfl rfl rfl rfl rfl rfl (by decide),
    by decide, by decide⟩

/-! ## C19: the DM text and the channel text -/

/-- The issue DM message, written out. -/
theorem issueDMMessage_eq (w : GitlabRetreiver) (issue : IssueCommentEvent) :
    issueDMMessage w issue =
      "[" ++ issue.User.Username ++ "](" ++ w.GetUserURL issue.User.Username ++
        ") commented on your " ++ "issue" ++ " [" ++ issue.Project.PathWithNamespace ++
        "#" ++ decimal issue.Issue.IID ++ "](" ++ issue.ObjectAttributes.URL ++ ")" := by
  apply String.ext
  simp [issueDMMessage, Sprintf, sprintfChars, formatVerb]

/-- The channel text of an issue comment is longer than its DM text by the
lengths of the repository URL, the title and the body, and three more
characters. -/
theorem issue_message_lengths (w : GitlabRetreiver) (issue : IssueCommentEvent) :
    (channelMessage w issue.User.Username issue.Project issue.Issue.IID issue.Issue.Title
        issue.ObjectAttributes.URL issue.ObjectAttributes.Description).length =
      (issueDMMessage w issue).length + issue.Project.WebURL.length +
        issue.Issue.Title.length + issue.ObjectAttributes.Description.length + 3 := by
  rw [issueDMMessage_eq, channelMessage_eq]
  simp only [String.length_append]
  have h1 : "[".length = 1 := rfl
  have h2 : "](".length = 2 := rfl
  have h3 : ") commented on your ".length = 20 := rfl
  have h4 : "issue".length = 5 := rfl
  have h5 : " [".length = 2 := rfl
  have h6 : "#".length = 1 := rfl
  have h7 : ")".length = 1 := rfl
  have h8 : ") New comment by [".length = 18 := rfl
  have h9 : ") on [#".length = 7 := rfl
  have h10 : " ".length = 1 := rfl
  have h11 : "):".length = 2 := rfl
  have h12 : "\n".length = 1 := rfl
  rw [h1, h2, h3, h4, h5, h6, h7, h8, h9, h10, h11, h12]
  omega

/-- A deduplication, in the sense of §4.6, of two records that differ in
`From` or `Message` is these two records. -/
theorem Deduplicated_pair (a b : HandleWebhook) (out : List HandleWebhook)
    (hab : sameNotification a b = false) (hd : Deduplicated [a, b] out) : out = [a, b] := by
  obtain ⟨_, hkeys, hrec, _⟩ := hd
  have hne : notificationKey b ≠ notificationKey a := by
    intro hk
    have := (sameNotification_iff a b).2 hk.symm
    rw [hab] at this
    exact Bool.false_ne_true this
  have hba : sameNotification b a = false := by
    rw [← Bool.not_eq_true, sameNotification_iff]
    exact hne
  have haa : sameNotification a a = true := by simp [sameNotification]
  have hbb : sameNotification b b = true := by simp [sameNotification]
  simp only [List.map_cons, List.map_nil, firstSeen, List.filter_nil, List.filter_cons,
    decide_eq_true_eq, hne, ne_eq, not_false_eq_true, if_true] at hkeys
  match out, hkeys, hrec with
  | [x, y], hkeys, hrec =>
    simp only [List.map_cons, List.map_nil, List.cons.injEq, and_true] at hkeys
    obtain ⟨hx, hy⟩ := hkeys
    have hxa : ∀ z, sameNotification x z = sameNotification a z := by
      intro z
      simp only [notificationKey, Prod.mk.injEq] at hx
      simp [sameNotification, hx.1, hx.2]
    have hyb : ∀ z, sameNotification y z = sameNotification b z := by
      intro z
      simp only [notificationKey, Prod.mk.injEq] at hy
      simp [sameNotification, hy.1, hy.2]
    have h1 := hrec x (by simp)
    have h2 := hrec y (by simp)
    simp only [hxa, hyb, List.filter_cons, haa, hab, hba, hbb, List.filter_nil, if_true,
      Bool.false_eq_true, if_false, List.flatMap_cons, List.flatMap_nil,
      List.append_nil] at h1 h2
    have ex : x = a := by
      cases x; cases a
      simp only [notificationKey, Prod.mk.injEq] at hx
      simp at h1
      simp [hx.1, hx.2, h1.1, h1.2]
    have ey : y = b := by
      cases y; cases b
      simp only [notificationKey, Prod.mk.injEq] at hy
      simp at h2
      simp [hy.1, hy.2, h2.1, h2.2]
    rw [ex, ey]
  | [], hkeys, _ => simp at hkeys
  | [_], hkeys, _ => simp at hkeys
  | _ :: _ :: _ :: _, hkeys, _ => simp at hkeys

/-- C19. For every issue comment, the DM text built by `handleDMIssueComment`
differs from the channel text built by `handleChannelIssueComment` (the channel
text is longer), so the DM record and a channel record of the same event never
share `From` and `Message`, and any deduplication of the two, in the sense of
§4.6, leaves both as they are: the DM record is not merged with the channel
record. -/
theorem dm_and_channel_texts_differ (h : Helpers) (w : GitlabRetreiver) (ctx : Context)
    (issue : IssueCommentEvent) :
    issueDMMessage w issue ≠
        channelMessage w issue.User.Username issue.Project issue.Issue.IID issue.Issue.Title
          issue.ObjectAttributes.URL issue.ObjectAttributes.Description
    ∧ (∀ d ∈ (handleDMIssueComment h w issue).1.head?,
        ∀ c ∈ (handleChannelIssueComment h w ctx issue).1,
          d.Message ≠ c.Message ∧ ¬ (d.From = c.From ∧ d.Message = c.Message))
    ∧ (∀ d ∈ (handleDMIssueComment h w issue).1.head?,
        ∀ c ∈ (handleChannelIssueComment h w ctx issue).1,
          ∀ out, Deduplicated [d, c] out → out = [d, c]) := by
  have hne : issueDMMessage w issue ≠
      channelMessage w issue.User.Username issue.Project issue.Issue.IID issue.Issue.Title
        issue.ObjectAttributes.URL issue.ObjectAttributes.Description := by
    intro heq
    have hlen := issue_message_lengths w issue
    rw [← heq] at hlen
    omega
  have hrec : ∀ d ∈ (handleDMIssueComment h w issue).1.head?,
      ∀ c ∈ (handleChannelIssueComment h w ctx issue).1, d.Message ≠ c.Message := by
    intro d hd c hc
    rw [handleDMIssueComment_head, Option.mem_def, Option.some.injEq] at hd
    rw [handleChannelIssueComment_records] at hc
    split at hc
    · simp at hc
    · rw [List.mem_singleton] at hc
      rw [← hd, hc]
      exact hne
  refine ⟨hne, ?_, ?_⟩
  · intro d hd c hc
    exact ⟨hrec d hd c hc, fun hboth => hrec d hd c hc hboth.2⟩
  · intro d hd c hc out hout
    apply Deduplicated_pair d c out _ hout
    rw [← Bool.not_eq_true, sameNotification_iff]
    intro hk
    simp only [notificationKey, Prod.mk.injEq] at hk
    exact hrec d hd c hc hk.2

/-- The DM record and the channel record of the sample issue comment pass the
Deduplicator of the specification unchanged. -/
theorem dm_and_channel_texts_differ_witness :
    (handleDMIssueComment (specHelpers noMention)
        (sampleRetreiver [sampleSub "channel1" "issue_comments"]) sampleIssueComment).1.head? =
      some { Message := issueDMMessage (sampleRetreiver [sampleSub "channel1" "issue_comments"])
               sampleIssueComment
             From := "manland", ToUsers := ["root", "manland", "root"], ToChannels := [] }
    ∧ (handleChannelIssueComment (specHelpers noMention)
        (sampleRetreiver [sampleSub "channel1" "issue_comments"]) sampleContext
        sampleIssueComment).1 =
      [{ Message := channelMessage (sampleRetreiver [sampleSub "channel1" "issue_comments"])
           "manland" sampleIssueComment.Project 1 "test new issue"
           sampleIssueComment.ObjectAttributes.URL "coucou3"
         From := "manland", ToUsers := [], ToChannels := ["channel1"] }]
    ∧ cleanWebhookHandlers
        [{ Message := issueDMMessage (sampleRetreiver [sampleSub "channel1" "issue_comments"])
             sampleIssueComment
           From := "manland", ToUsers := ["root", "manland", "root"], ToChannels := [] },
         { Message := channelMessage (sampleRetreiver [sampleSub "channel1" "issue_comments"])
             "manland" sampleIssueComment.Project 1 "test new issue"
             sampleIssueComment.ObjectAttributes.URL "coucou3"
           From := "manland", ToUsers := [], ToChannels := ["channel1"] }] =
      [{ Message := issueDMMessage (sampleRetreiver [sampleSub "channel1" "issue_comments"])
           sampleIssueComment
         From := "manland", ToUsers := ["root", "manland", "root"], ToChannels := [] },
       { Message := channelMessage (sampleRetreiver [sampleSub "channel1" "issue_comments"])
           "manland" sampleIssueComment.Project 1 "test new issue"
           sampleIssueComment.ObjectAttributes.URL "coucou3"
         From := "manland", ToUsers := [], ToChannels := ["channel1"] }] :=
  ⟨rfl, rfl,
    (dm_and_channel_texts_differ (specHelpers noMention)
      (sampleRetreiver [sampleSub "channel1" "issue_comments"]) sampleContext
      sampleIssueComment).2.2 _ rfl _ (List.mem_singleton.2 rfl) _
      (cleanWebhookHandlers_deduplicated _)⟩

/-! ## The ordering contract with the Deduplicator that removes duplicate usernames -/

theorem distinctUsers_isEmpty (l : List String) : (distinctUsers l).isEmpty = l.isEmpty := by
  cases l <;> rfl

/-- X2. The ordering of C8 does not depend on which of the two readings of the
Deduplicator is taken: with the Deduplicator that also keeps each username of
a record once, no DM-shaped record of the list returned by `HandleIssueComment`
or `HandleMergeRequestComment` stands behind a channel-shaped one. -/
theorem ordering_contract_distinct_users (h : Helpers) (w : GitlabRetreiver) (ctx : Context)
    (issue : IssueCommentEvent) (mr : MergeCommentEvent)
    (hclean : h.cleanWebhookHandlers = cleanWebhookHandlersDistinct) :
    (∀ out, (HandleIssueComment h w ctx issue).1 = some out →
        out.Pairwise (fun a b => ¬ (channelShaped a = true ∧ dmShaped b = true)))
    ∧ (∀ out, (HandleMergeRequestComment h w ctx mr).1 = some out →
        out.Pairwise (fun a b => ¬ (channelShaped a = true ∧ dmShaped b = true))) := by
  have hshape : ∀ l : List HandleWebhook,
      l.Pairwise (fun a b => ¬ (channelShaped a = true ∧ dmShaped b = true)) →
      (l.map (fun r : HandleWebhook =>
          HandleWebhook.mk r.Message r.From (distinctUsers r.ToUsers) r.ToChannels)).Pairwise
        (fun a b => ¬ (channelShaped a = true ∧ dmShaped b = true)) := by
    intro l hl
    rw [List.pairwise_map]
    refine hl.imp ?_
    intro a b hab
    simpa only [channelShaped, dmShaped, distinctUsers_isEmpty] using hab
  constructor
  · intro out hout
    rw [HandleIssueComment_eq, hclean, handleDMIssueComment_records,
      handleChannelIssueComment_records] at hout
    simp only [Option.some.injEq] at hout
    rw [← hout, cleanWebhookHandlersDistinct, List.singleton_append, List.cons_append]
    apply hshape
    apply cleanWebhookHandlers_order
    · rw [issueToUsers_eq]; simp
    · cases h.handleMention w _ <;> simp
    · split <;> simp
    · intro c hc
      split at hc
      · simp at hc
      · simp only [List.mem_singleton] at hc
        rw [hc]
  · intro out hout
    rw [HandleMergeRequestComment_eq, hclean, handleDMMergeRequestComment_records,
      handleChannelMergeRequestComment_records] at hout
    simp only [Option.some.injEq] at hout
    rw [← hout, cleanWebhookHandlersDistinct, List.singleton_append, List.cons_append]
    apply hshape
    apply cleanWebhookHandlers_order
    · simp
    · cases h.handleMention w _ <;> simp
    · split <;> simp
    · intro c hc
      split at hc
      · simp at hc
      · simp only [List.mem_singleton] at hc
        rw [hc]

/-- Witness of X2: the first sample of `note_test.go` returns the DM record, its
users kept once, then the channel record. -/
theorem ordering_contract_distinct_users_witness :
    (specHelpersDistinct noMention).cleanWebhookHandlers = cleanWebhookHandlersDistinct
    ∧ ((∀ out, (HandleIssueComment (specHelpersDistinct noMention)
            (sampleRetreiver [sampleSub "channel1" "issue_comments"]) sampleContext
            sampleIssueComment).1 = some out →
          out.Pairwise (fun a b => ¬ (channelShaped a = true ∧ dmShaped b = true)))
      ∧ (∀ out, (HandleMergeRequestComment (specHelpersDistinct noMention)
            (sampleRetreiver [sampleSub "channel1" "issue_comments"]) sampleContext
            sampleMergeComment).1 = some out →
          out.Pairwise (fun a b => ¬ (channelShaped a = true ∧ dmShaped b = true))))
    ∧ (HandleIssueComment (specHelpersDistinct noMention)
          (sampleRetreiver [sampleSub "channel1" "issue_comments"]) sampleContext
          sampleIssueComment).1.map (List.map (fun r => (r.ToUsers, r.ToChannels)))
        = some [(["root", "manland"], []), ([], ["channel1"])] :=
  ⟨rfl,
    ordering_contract_distinct_users (specHelpersDistinct noMention)
      (sampleRetreiver [sampleSub "channel1" "issue_comments"]) sampleContext
      sampleIssueComment sampleMergeComment rfl,
    by decide⟩

end GitlabWebhook
